import Mathlib

/-!
# The memory-management core of the macroscope kernel

A shallow embedding of `kernel/l0/frame.c` (the bitmap frame allocator) and of
`kernel/l0/paging.c` (the page-table engine, the page-fault handler, `paging_setup`
and `create_pagedir`) and of the byte copies of `kernel/lib/string.c`, followed by
theorems about them.

Machine integers are natural numbers; every place where the C code computes in
32-bit unsigned arithmetic reduces modulo `2 ^ 32` explicitly.
-/

namespace Macroscope

/-! ## Constants and macros of the kernel headers -/

/-- Modelled from the spec: `PAGE_SIZE` of the header `paging.h`, which is not among
the sources; the spec gives `PAGE_SIZE = 4096`. -/
def PAGE_SIZE : Nat := 4096

/-- Modelled from the spec: `K_HIGHHALF_ADDR` of the missing headers, the virtual base
of the kernel half. `FIRST_KERNEL_PT = 768` is the directory index that covers it and
the spec's bootstrap scenario subtracts `0xC0000000`. -/
def K_HIGHHALF_ADDR : Nat := 0xC0000000

/-- Modelled from the spec: `PAGE_ID(x)` of the missing headers, the frame number of a
physical address (16 MiB of RAM give `nframes = 4096`). -/
def PAGE_ID (x : Nat) : Nat := x / PAGE_SIZE

/-- Modelled from the spec: `ALIGN4_UP(x)` of the missing headers, `x` rounded up to a
multiple of 4 in 32-bit arithmetic. -/
def ALIGN4_UP (x : Nat) : Nat := ((x + 3) % 2 ^ 32) / 4 * 4

/-- Modelled from the spec: `PAGE_ALIGN_UP(x)` of the missing headers, `x` rounded up to
a multiple of `PAGE_SIZE` in 32-bit arithmetic. -/
def PAGE_ALIGN_UP (x : Nat) : Nat := ((x + (PAGE_SIZE - 1)) % 2 ^ 32) / PAGE_SIZE * PAGE_SIZE

/-- The macro `INDEX_FROM_BIT(a)`, `(a/(8*4))`, at an argument that is a single variable.
The macro does not parenthesise `a`: where the source passes `base + n`, in `frame_free`,
the expansion is written out there. -/
def INDEX_FROM_BIT (a : Nat) : Nat := a / (8 * 4)

/-- The macro `OFFSET_FROM_BIT(a)`, `a%(8*4)`. -/
def OFFSET_FROM_BIT (a : Nat) : Nat := a % (8 * 4)

/-! ## The frame allocator (`frame.c`) -/

/-- The static variables of `frame.c`. `frame_bitset i` is the 32-bit word
`frame_bitset[i]`, the memory word at index `i` from the bitmap pointer. -/
structure FrameState where
  frame_bitset : Nat → Nat
  nframes : Nat
  nused_frames : Nat
  begin_search_at : Nat

/-- Every variable of the allocator holds a 32-bit value, as its C type says. -/
def FrameState.wf (s : FrameState) : Prop :=
  (∀ i, s.frame_bitset i < 2 ^ 32) ∧ s.nframes < 2 ^ 32 ∧
    s.nused_frames < 2 ^ 32 ∧ s.begin_search_at < 2 ^ 32

/-- Bit `b` of the bitmap: bit `OFFSET_FROM_BIT(b)` of word `INDEX_FROM_BIT(b)`. -/
def frame_bit (s : FrameState) (b : Nat) : Bool :=
  (s.frame_bitset (INDEX_FROM_BIT b)).testBit (OFFSET_FROM_BIT b)

/-- The first loop of `frame_init_allocator`: `frame_bitset[i] = 0` for `i < k`. -/
def frame_init_zero (bs : Nat → Nat) : Nat → Nat → Nat
  | 0 => bs
  | k + 1 => Function.update (frame_init_zero bs k) k 0

/-- The second loop of `frame_init_allocator`, run for `i < k`: it sets bit `i` and
increments `nused_frames`. -/
def frame_init_mark (s : FrameState) : Nat → FrameState
  | 0 => s
  | i + 1 =>
    let t := frame_init_mark s i
    let idx := INDEX_FROM_BIT i
    let ofs := OFFSET_FROM_BIT i
    { t with
      frame_bitset := Function.update t.frame_bitset idx (t.frame_bitset idx ||| (0x1 <<< ofs))
      nused_frames := (t.nused_frames + 1) % 2 ^ 32 }

/-- The value `frame_init_allocator` stores back into `*kernel_data_end`:
`(void*)frame_bitset + ALIGN4_UP(nframes / 8)` with `frame_bitset` at
`ALIGN4_UP(*kernel_data_end)`. -/
def frame_init_data_end (total_ram kernel_data_end : Nat) : Nat :=
  (ALIGN4_UP kernel_data_end + ALIGN4_UP (PAGE_ID total_ram / 8)) % 2 ^ 32

/-- The local `kernel_pages` of `frame_init_allocator`:
`PAGE_ALIGN_UP((size_t)*kernel_data_end - K_HIGHHALF_ADDR)/PAGE_SIZE`, computed from the
updated `*kernel_data_end`. -/
def frame_init_kernel_pages (total_ram kernel_data_end : Nat) : Nat :=
  PAGE_ALIGN_UP ((frame_init_data_end total_ram kernel_data_end + 2 ^ 32 - K_HIGHHALF_ADDR)
    % 2 ^ 32) / PAGE_SIZE

/-- The function `frame_init_allocator(total_ram, &kernel_data_end)`. `mem` is the content
of memory, in words from the 4-aligned `kernel_data_end`, before the call; the result is
the allocator state and the new value of `*kernel_data_end`. -/
def frame_init_allocator (mem : Nat → Nat) (total_ram kernel_data_end : Nat) :
    FrameState × Nat :=
  let nframes := PAGE_ID total_ram
  let kernel_data_end1 := frame_init_data_end total_ram kernel_data_end
  let bs := frame_init_zero mem (ALIGN4_UP (nframes / 8) / 4)
  let kernel_pages := frame_init_kernel_pages total_ram kernel_data_end
  let s := frame_init_mark
    { frame_bitset := bs, nframes := nframes, nused_frames := 0, begin_search_at := 0 }
    kernel_pages
  ({ s with begin_search_at := INDEX_FROM_BIT kernel_pages }, kernel_data_end1)

/-- The mask `to_test = (0xFFFFFFFF >> (32 - n)) << j` of `frame_alloc`. -/
def to_test (n j : Nat) : Nat := ((0xFFFFFFFF >>> (32 - n)) <<< j) % 2 ^ 32

/-- The inner loop of `frame_alloc` on the word `w`: `j` is the loop variable and the
first argument counts the iterations left before `j` reaches `32 - n + 1`. The result is
the first `j` whose mask is free in `w`. -/
def frame_alloc_word (w n : Nat) : Nat → Nat → Option Nat
  | 0, _ => none
  | k + 1, j => if w &&& to_test n j = 0 then some j else frame_alloc_word w n k (j + 1)

/-- The outer loop of `frame_alloc`: `i` is the loop variable and the first argument
counts the iterations left before `i` reaches `INDEX_FROM_BIT(nframes)`. -/
def frame_alloc_loop (n : Nat) : Nat → Nat → FrameState → FrameState × Nat
  | 0, _, s => (s, 0)
  | k + 1, i, s =>
    if s.frame_bitset i = 0xFFFFFFFF then
      frame_alloc_loop n k (i + 1)
        (if i = s.begin_search_at then
          { s with begin_search_at := (s.begin_search_at + 1) % 2 ^ 32 }
        else s)
    else
      match frame_alloc_word (s.frame_bitset i) n (32 - n + 1) 0 with
      | some j =>
        ({ s with
            frame_bitset := Function.update s.frame_bitset i (s.frame_bitset i ||| to_test n j)
            nused_frames := (s.nused_frames + n) % 2 ^ 32 },
          (i * 32 + j) % 2 ^ 32)
      | none => frame_alloc_loop n k (i + 1) s

/-- The function `frame_alloc(n)`: the new state and the returned frame id. -/
def frame_alloc (s : FrameState) (n : Nat) : FrameState × Nat :=
  if n > 32 then (s, 0)
  else frame_alloc_loop n (INDEX_FROM_BIT s.nframes - s.begin_search_at) s.begin_search_at s

/-- The loop of `frame_free(base, n)`, run for `x < k`. The source computes
`INDEX_FROM_BIT(base + n)` and `OFFSET_FROM_BIT(base + n)` in every iteration, and the
macros `(a/(8*4))` and `(a%(8*4))` do not parenthesise their argument: the expansions are
`base + n/(8*4)` and `base + n%(8*4)`, computed in 32 bits. The count of the shift
`0x1 << ofs` is taken modulo 32, as the shift instruction of the i386 takes it; C leaves
a count of 32 or more undefined. -/
def frame_free_loop (base n : Nat) (s : FrameState) : Nat → FrameState
  | 0 => s
  | x + 1 =>
    let t := frame_free_loop base n s x
    let idx := (base + n / (8 * 4)) % 2 ^ 32
    let ofs := (base + n % (8 * 4)) % 2 ^ 32
    if t.frame_bitset idx &&& (0x1 <<< (ofs % 32)) ≠ 0 then
      { t with
        frame_bitset :=
          Function.update t.frame_bitset idx
            (t.frame_bitset idx &&& (0xFFFFFFFF ^^^ (0x1 <<< (ofs % 32))))
        nused_frames := (t.nused_frames + (2 ^ 32 - 1)) % 2 ^ 32 }
    else t

/-- The function `frame_free(base, n)`. -/
def frame_free (s : FrameState) (base n : Nat) : FrameState :=
  let t := frame_free_loop base n s n
  if INDEX_FROM_BIT base < t.begin_search_at then
    { t with begin_search_at := INDEX_FROM_BIT base }
  else t

/-- The number of 32-bit words of the bitmap: `frame_init_allocator` reserves and zeroes
`ALIGN4_UP(nframes / 8)` bytes for it. -/
def bitset_words (s : FrameState) : Nat := ALIGN4_UP (s.nframes / 8) / 4

/-- Bit `b` lies inside the bitmap. -/
def in_bitmap (s : FrameState) (b : Nat) : Prop := b < 32 * bitset_words s

/-- The number of set bits of the bitmap. -/
def popcount (s : FrameState) : Nat :=
  ((Finset.range (32 * bitset_words s)).filter (fun b => frame_bit s b = true)).card

/-- Invariant F1 of the spec: `popcount(bitmap) == nused_frames`. -/
def F1 (s : FrameState) : Prop := popcount s = s.nused_frames

/-- Word `i` of the bitmap has `n` consecutive clear bits starting at offset `j`. -/
def fits (s : FrameState) (n i j : Nat) : Prop :=
  ∀ k, k < n → frame_bit s (32 * i + j + k) = false

instance fits_decidable (s : FrameState) (n i j : Nat) : Decidable (fits s n i j) :=
  inferInstanceAs (Decidable (∀ k, k < n → frame_bit s (32 * i + j + k) = false))

instance in_bitmap_decidable (s : FrameState) (b : Nat) : Decidable (in_bitmap s b) :=
  inferInstanceAs (Decidable (b < 32 * bitset_words s))

instance F1_decidable (s : FrameState) : Decidable (F1 s) :=
  inferInstanceAs (Decidable (popcount s = s.nused_frames))

/-- The search of `frame_alloc` from word `i` over `k` words failed: nothing but the
cursor changed, the result is 0 and no scanned word has a free mask. -/
def AllocFail (n : Nat) (s : FrameState) (i k : Nat) (res : FrameState × Nat) : Prop :=
  res.1.frame_bitset = s.frame_bitset ∧ res.1.nused_frames = s.nused_frames ∧ res.2 = 0 ∧
    ∀ i', i ≤ i' → i' < i + k → ∀ j', j' + n ≤ 32 → s.frame_bitset i' &&& to_test n j' ≠ 0

/-- The search of `frame_alloc` from word `i` over `k` words stopped at word `i1`, offset
`j1`: the first free mask in scan order. -/
def AllocHit (n : Nat) (s : FrameState) (i k : Nat) (res : FrameState × Nat)
    (i1 j1 : Nat) : Prop :=
  i ≤ i1 ∧ i1 < i + k ∧ j1 + n ≤ 32 ∧ s.frame_bitset i1 &&& to_test n j1 = 0 ∧
    (∀ i', i ≤ i' → i' < i1 → ∀ j', j' + n ≤ 32 → s.frame_bitset i' &&& to_test n j' ≠ 0) ∧
    (∀ j', j' < j1 → s.frame_bitset i1 &&& to_test n j' ≠ 0) ∧
    res.1.frame_bitset =
      Function.update s.frame_bitset i1 (s.frame_bitset i1 ||| to_test n j1) ∧
    res.1.nused_frames = (s.nused_frames + n) % 2 ^ 32 ∧
    res.2 = (i1 * 32 + j1) % 2 ^ 32

/-- One iteration of the loop of `frame_free(base, n)`. -/
def frame_free_step (base n : Nat) (t : FrameState) : FrameState :=
  frame_free_loop base n t 1

/-- The word of the bitmap that every iteration of `frame_free(base, n)` accesses:
`base + n/(8*4)` in 32 bits. -/
def frame_free_word (base n : Nat) : Nat := (base + n / (8 * 4)) % 2 ^ 32

/-- The bit of the bitmap that every iteration of `frame_free(base, n)` accesses, numbered
as `frame_bit` numbers the bits: bit `(base + n%(8*4)) % 32` of word `frame_free_word`. -/
def frame_free_bit (base n : Nat) : Nat :=
  32 * frame_free_word base n + ((base + n % (8 * 4)) % 2 ^ 32) % 32

/-- A bitmap whose word 0 is `w0` and whose other words are zero. -/
def bitset_of_word (w0 : Nat) : Nat → Nat := fun i => if i = 0 then w0 else 0

/-- An allocator over 64 frames whose 32-bit counter `nused_frames` holds its largest
value, with frame 0 used. -/
def wrap_state : FrameState :=
  { frame_bitset := bitset_of_word 1, nframes := 64, nused_frames := 0xFFFFFFFF,
    begin_search_at := 0 }

/-- An allocator over 64 frames with frames 1, 2 and 3 used. -/
def run_state : FrameState :=
  { frame_bitset := bitset_of_word 0xE, nframes := 64, nused_frames := 3,
    begin_search_at := 0 }

/-- An allocator over 64 frames with only frame 0 used. -/
def boot_state : FrameState :=
  { frame_bitset := bitset_of_word 1, nframes := 64, nused_frames := 1,
    begin_search_at := 0 }

/-- A bitmap whose words 0 and 1 are `w0` and `w1` and whose other words are zero. -/
def bitset_of_words (w0 w1 : Nat) : Nat → Nat :=
  fun i => if i = 0 then w0 else if i = 1 then w1 else 0

/-- An allocator over 64 frames with frames 0, 1, 2, 3 and 35 used. -/
def far_state : FrameState :=
  { frame_bitset := bitset_of_words 0xF 0x8, nframes := 64, nused_frames := 5,
    begin_search_at := 0 }

/-- Modelled from the spec: `PAGE_SHIFT` of the missing header `paging.h`, the binary
logarithm of `PAGE_SIZE = 4096`. -/
def PAGE_SHIFT : Nat := 12

/-- Modelled from the spec: `PT_SHIFT` of the missing header `paging.h`, the binary
logarithm of `N_PAGES_IN_PT = 1024`. -/
def PT_SHIFT : Nat := 10

/-- Modelled from the spec: `N_PAGES_IN_PT` of the missing header `paging.h`; the spec
gives `N_PAGES_IN_PT = 1024`. -/
def N_PAGES_IN_PT : Nat := 1024

/-- Modelled from the spec: `PD_MIRROR_ADDR` of the missing header `paging.h`, the base of
the 4 MiB window that directory entry 1023 maps: the last 4 MiB of the address space. -/
def PD_MIRROR_ADDR : Nat := 0xFFC00000

/-- The macro `PAGE_OF_ADDR(x)`. -/
def PAGE_OF_ADDR (x : Nat) : Nat := (x >>> PAGE_SHIFT) % N_PAGES_IN_PT

/-- The macro `PT_OF_ADDR(x)`. -/
def PT_OF_ADDR (x : Nat) : Nat := x >>> (PAGE_SHIFT + PT_SHIFT)

def PTE_PRESENT : Nat := 1 <<< 0

def PTE_RW : Nat := 1 <<< 1

def PTE_USER : Nat := 1 <<< 2

def PTE_GLOBAL : Nat := 1 <<< 8

def PTE_FRAME_SHIFT : Nat := 12

/-- The state the page-table engine works on. `mem f i` is the 32-bit word at index `i`
of the physical frame `f`; `cr3` is the frame of the active page directory; `kernel_pd` is
the frame that holds the static object `kernel_pd`; `frames` is the frame allocator.
The mutexes are left out (one thread), and so is the TLB: every access walks the tables
in memory. -/
structure PagingState where
  mem : Nat → Nat → Nat
  cr3 : Nat
  kernel_pd : Nat
  frames : FrameState

/-- The ways in which an operation does not return to its caller: a page fault at a
virtual address (control goes to the page-fault handler), or a failed `ASSERT`. -/
inductive Trap where
  | page_fault (vaddr : Nat)
  | assert_failed
  deriving DecidableEq, Repr

/-- Modelled from the spec: the two-level walk that the x86 MMU does for a 4 KiB page,
with 4 MiB pages disabled. The directory entry of `vaddr` in the frame `cr3` and then the
table entry in the frame it names must both have the present bit; the result is the frame
of bits 12..31 of the table entry. `none` is a page fault. -/
def mmu_walk (s : PagingState) (vaddr : Nat) : Option Nat :=
  let pde := s.mem s.cr3 (PT_OF_ADDR vaddr)
  if pde &&& PTE_PRESENT = 0 then none
  else
    let pte := s.mem (pde >>> PTE_FRAME_SHIFT) (PAGE_OF_ADDR vaddr)
    if pte &&& PTE_PRESENT = 0 then none
    else some (pte >>> PTE_FRAME_SHIFT)

/-- A 32-bit load from the virtual address `vaddr`. -/
def load32 (s : PagingState) (vaddr : Nat) : Except Trap Nat :=
  match mmu_walk s vaddr with
  | none => .error (.page_fault vaddr)
  | some f => .ok (s.mem f (vaddr % PAGE_SIZE / 4))

/-- Physical memory after the word `i` of frame `f` has been set to `v`. -/
def mem_write (mem : Nat → Nat → Nat) (f i v : Nat) : Nat → Nat → Nat :=
  Function.update mem f (Function.update (mem f) i v)

/-- A 32-bit store to the virtual address `vaddr`. -/
def store32 (s : PagingState) (vaddr v : Nat) : Except Trap PagingState :=
  match mmu_walk s vaddr with
  | none => .error (.page_fault vaddr)
  | some f => .ok { s with mem := mem_write s.mem f (vaddr % PAGE_SIZE / 4) v }

/-- The address of `current_pt[pt].page[page]`, with
`current_pt = (pagetable_t*)PD_MIRROR_ADDR`. -/
def current_pt_addr (pt page : Nat) : Nat := PD_MIRROR_ADDR + pt * PAGE_SIZE + 4 * page

/-- The address of `current_pd->page[i]`, with
`current_pd = (pagetable_t*)(PD_MIRROR_ADDR + (N_PAGES_IN_PT-1)*PAGE_SIZE)`. -/
def current_pd_addr (i : Nat) : Nat :=
  PD_MIRROR_ADDR + (N_PAGES_IN_PT - 1) * PAGE_SIZE + 4 * i

/-- The C expression `!x & PTE_PRESENT`: the logical negation binds first, so this is
`PTE_PRESENT` and-ed with 1 when `x == 0` and with 0 otherwise. -/
def not_and_present (x : Nat) : Nat := (if x = 0 then 1 else 0) &&& PTE_PRESENT

/-- The read `pd->page[pt]` with
`pd = ((size_t)vaddr >= K_HIGHHALF_ADDR ? &kernel_pd : current_pd)`. The object
`kernel_pd` belongs to the kernel image, which every page directory maps, so it is read
in its frame; `current_pd` is read through the mirror window. -/
def load_pd (s : PagingState) (vaddr pt : Nat) : Except Trap Nat :=
  if vaddr ≥ K_HIGHHALF_ADDR then .ok (s.mem s.kernel_pd pt)
  else load32 s (current_pd_addr pt)

/-- The write `pd->page[pt] = v` with the same `pd`. -/
def store_pd (s : PagingState) (vaddr pt v : Nat) : Except Trap PagingState :=
  if vaddr ≥ K_HIGHHALF_ADDR then .ok { s with mem := mem_write s.mem s.kernel_pd pt v }
  else store32 s (current_pd_addr pt) v

/-- The function `pd_get_frame(vaddr)`. -/
def pd_get_frame (s : PagingState) (vaddr : Nat) : Except Trap Nat :=
  let pt := PT_OF_ADDR vaddr
  let page := PAGE_OF_ADDR vaddr
  match load_pd s vaddr pt with
  | .error e => .error e
  | .ok pde =>
    if not_and_present pde ≠ 0 then .ok 0
    else
      match load32 s (current_pt_addr pt page) with
      | .error e => .error e
      | .ok pte =>
        if not_and_present pte ≠ 0 then .ok 0
        else .ok (pte >>> PTE_FRAME_SHIFT)

/-- Lines 185 to 195 of `pd_map_page`: when the test on `pd->page[pt]` fires, a frame is
allocated for a new page table and installed in `pd->page[pt]` and `current_pd->page[pt]`.
The status is 1 when the allocation failed (the `return 1` of the source) and 0 when the
function goes on to write the table entry. -/
def pd_map_page_table (s : PagingState) (vaddr : Nat) : Except Trap (PagingState × Nat) :=
  let pt := PT_OF_ADDR vaddr
  match load_pd s vaddr pt with
  | .error e => .error e
  | .ok pde =>
    if not_and_present pde ≠ 0 then
      let new_pt_frame := (frame_alloc s.frames 1).2
      let s1 := { s with frames := (frame_alloc s.frames 1).1 }
      if new_pt_frame = 0 then .ok (s1, 1)
      else
        let v := ((new_pt_frame <<< PTE_FRAME_SHIFT) % 2 ^ 32) ||| PTE_PRESENT ||| PTE_RW
        match store_pd s1 vaddr pt v with
        | .error e => .error e
        | .ok s2 =>
          match store32 s2 (current_pd_addr pt) v with
          | .error e => .error e
          | .ok s3 => .ok (s3, 0)
    else .ok (s, 0)

/-- The value that `pd_map_page` stores into the table entry (lines 197 to 200). -/
def pd_map_page_entry (vaddr frame_id : Nat) (rw : Bool) : Nat :=
  ((frame_id <<< PTE_FRAME_SHIFT) % 2 ^ 32)
    ||| PTE_PRESENT
    ||| (if vaddr < K_HIGHHALF_ADDR then PTE_USER else PTE_GLOBAL)
    ||| (if rw then PTE_RW else 0)

/-- The function `pd_map_page(vaddr, frame_id, rw)`: the new state and the returned
status, 0 for success and 1 for out of memory. -/
def pd_map_page (s : PagingState) (vaddr frame_id : Nat) (rw : Bool) :
    Except Trap (PagingState × Nat) :=
  let pt := PT_OF_ADDR vaddr
  let page := PAGE_OF_ADDR vaddr
  if ¬ vaddr < PD_MIRROR_ADDR then .error .assert_failed
  else
    match pd_map_page_table s vaddr with
    | .error e => .error e
    | .ok (s1, status) =>
      if status ≠ 0 then .ok (s1, status)
      else
        match store32 s1 (current_pt_addr pt page) (pd_map_page_entry vaddr frame_id rw) with
        | .error e => .error e
        | .ok s2 => .ok (s2, 0)

/-- The function `pd_unmap_page(vaddr)`. -/
def pd_unmap_page (s : PagingState) (vaddr : Nat) : Except Trap PagingState :=
  let pt := PT_OF_ADDR vaddr
  let page := PAGE_OF_ADDR vaddr
  match load_pd s vaddr pt with
  | .error e => .error e
  | .ok pde =>
    if not_and_present pde ≠ 0 then .ok s
    else
      match load32 s (current_pt_addr pt page) with
      | .error e => .error e
      | .ok pte =>
        if not_and_present pte ≠ 0 then .ok s
        else store32 s (current_pt_addr pt page) 0

/-- The higher-half address `&kernel_pd` of the object in frame `kernel_pd`
(`paging_setup` computes its physical address as `(size_t)&kernel_pd - K_HIGHHALF_ADDR`). -/
def kernel_pd_addr (s : PagingState) : Nat :=
  (K_HIGHHALF_ADDR + s.kernel_pd * PAGE_SIZE) % 2 ^ 32

/-- The three `PANIC`s of `page_fault_handler` that do not depend on the region allocator. -/
inductive FaultPanic where
  | kernel_stack_overflow
  | mirror_fault
  | userspace_fault
  deriving DecidableEq, Repr

/-- How a run of `page_fault_handler` ends: it returns after the lazy copy of a kernel
directory entry (line 62), it panics, or it reaches `find_region` (line 77), from where its
behaviour is that of the region allocator, which is not among the sources. -/
inductive FaultResult where
  | resolved (s : PagingState)
  | panic (p : FaultPanic)
  | region_lookup (s : PagingState)

/-- The state in which the handler has returned to the faulting code, if it has. -/
def FaultResult.returned : FaultResult → Option PagingState
  | .resolved s => some s
  | .panic _ => none
  | .region_lookup _ => none

/-- Lines 64 to 77 of `page_fault_handler`, after the lazy-copy test did not fire:
`stack_protector` is the address `&kernel_stack_protector`. -/
def page_fault_rest (stack_protector : Nat) (s : PagingState) (vaddr : Nat) : FaultResult :=
  if vaddr ≥ stack_protector ∧ vaddr < stack_protector + PAGE_SIZE then
    .panic .kernel_stack_overflow
  else if vaddr ≥ PD_MIRROR_ADDR then .panic .mirror_fault
  else .region_lookup s

/-- The function `page_fault_handler`, with the faulting address `vaddr` read from `cr2`.
The test `current_pd != &kernel_pd` compares the two addresses; the entries are read and
written as everywhere else, `current_pd` through the mirror window and `kernel_pd` in its
frame. A page fault inside the handler is a `Trap`. -/
def page_fault_handler (stack_protector : Nat) (s : PagingState) (vaddr : Nat) :
    Except Trap FaultResult :=
  if vaddr ≥ K_HIGHHALF_ADDR then
    let pt := PT_OF_ADDR vaddr
    if current_pd_addr 0 ≠ kernel_pd_addr s then
      match load32 s (current_pd_addr pt) with
      | .error e => .error e
      | .ok entry =>
        if entry ≠ s.mem s.kernel_pd pt then
          match store32 s (current_pd_addr pt) (s.mem s.kernel_pd pt) with
          | .error e => .error e
          | .ok s1 => .ok (.resolved s1)
        else .ok (page_fault_rest stack_protector s vaddr)
    else .ok (page_fault_rest stack_protector s vaddr)
  else .ok (.panic .userspace_fault)

/-- Modelled from the spec: `PAGE_MASK` of the missing header `paging.h`, the mask of the
frame address in an entry (bits 12..31). -/
def PAGE_MASK : Nat := 0xFFFFF000

/-- The first loop of `paging_setup`, run for `i < k`, on the frame allocator and on the
static table `kernel_pt0`, which lives in frame `kernel_pt0`: the page of
`&kernel_stack_protector` gets a zero entry and `frame_free(i, 1)`, every other page an
identity entry. -/
def paging_setup_map (stack_protector kernel_pt0 : Nat) (s : PagingState) :
    Nat → PagingState
  | 0 => s
  | i + 1 =>
    let t := paging_setup_map stack_protector kernel_pt0 s i
    if (i * PAGE_SIZE + K_HIGHHALF_ADDR) % 2 ^ 32 = stack_protector then
      { t with
        mem := mem_write t.mem kernel_pt0 i 0
        frames := frame_free t.frames i 1 }
    else
      { t with
        mem := mem_write t.mem kernel_pt0 i
          (((i <<< PTE_FRAME_SHIFT) % 2 ^ 32) ||| PTE_PRESENT ||| PTE_RW ||| PTE_GLOBAL) }

/-- The second loop of `paging_setup`: `kernel_pt0.page[i] = 0` for
`n_kernel_pages ≤ i < n_kernel_pages + k`. -/
def paging_setup_clear (kernel_pt0 n_kernel_pages : Nat) (s : PagingState) :
    Nat → PagingState
  | 0 => s
  | k + 1 =>
    let t := paging_setup_clear kernel_pt0 n_kernel_pages s k
    { t with mem := mem_write t.mem kernel_pt0 (n_kernel_pages + k) 0 }

/-- The local variable `n_kernel_pages` of `paging_setup`:
`PAGE_ALIGN_UP((size_t)kernel_data_end - K_HIGHHALF_ADDR) / PAGE_SIZE`, the subtraction
in 32 bits. -/
def n_kernel_pages (kernel_data_end : Nat) : Nat :=
  PAGE_ALIGN_UP ((kernel_data_end + 2 ^ 32 - K_HIGHHALF_ADDR) % 2 ^ 32) / PAGE_SIZE

/-- Modelled from the spec: `FIRST_KERNEL_PT` of the missing header `paging.h`, the
directory index of `K_HIGHHALF_ADDR` (`paging_setup` asserts that it is 768). -/
def FIRST_KERNEL_PT : Nat := 768

/-- The two stores of `paging_setup` into the static directory `kernel_pd`, which it
addresses directly: entry `FIRST_KERNEL_PT` names `kernel_pt0` and entry 1023 the
directory itself. -/
def paging_setup_install (kernel_pt0 : Nat) (s : PagingState) : PagingState :=
  let s3 := { s with
    mem := mem_write s.mem s.kernel_pd FIRST_KERNEL_PT
      (((kernel_pt0 * PAGE_SIZE) &&& PAGE_MASK) ||| PTE_PRESENT ||| PTE_RW) }
  { s3 with
    mem := mem_write s3.mem s3.kernel_pd (N_PAGES_IN_PT - 1)
      (((s3.kernel_pd * PAGE_SIZE) &&& PAGE_MASK) ||| PTE_PRESENT ||| PTE_RW) }

/-- The function `paging_setup(kernel_data_end)`, up to the installation of the two
entries of `kernel_pd`; the changes to `cr4` and to the IDT are left out. `kernel_pt0` is
the frame of the static, page-aligned table of that name. -/
def paging_setup (stack_protector kernel_pt0 : Nat) (s : PagingState)
    (kernel_data_end : Nat) : Except Trap PagingState :=
  let n := n_kernel_pages kernel_data_end
  if ¬ n ≤ 1024 then .error .assert_failed
  else
    let s1 := paging_setup_map stack_protector kernel_pt0 s n
    let s2 := paging_setup_clear kernel_pt0 n s1 (1024 - n)
    .ok (paging_setup_install kernel_pt0 s2)

/-- Invariant P1 of the spec for the active page directory: its entry 1023 equals
`phys_addr(self) | present | rw`. -/
def P1 (s : PagingState) : Prop :=
  s.mem s.cr3 (N_PAGES_IN_PT - 1) = (s.cr3 * PAGE_SIZE) ||| PTE_PRESENT ||| PTE_RW

instance P1_decidable (s : PagingState) : Decidable (P1 s) :=
  inferInstanceAs (Decidable
    (s.mem s.cr3 (N_PAGES_IN_PT - 1) = (s.cr3 * PAGE_SIZE) ||| PTE_PRESENT ||| PTE_RW))

/-- The call `pd_map_page(vaddr, frame_id, rw)` followed by `pd_get_frame(vaddr)`: the
status of the first and the frame returned by the second. -/
def pd_map_then_get (s : PagingState) (vaddr frame_id : Nat) (rw : Bool) :
    Except Trap (Nat × Nat) :=
  match pd_map_page s vaddr frame_id rw with
  | .error e => .error e
  | .ok (s1, status) =>
    match pd_get_frame s1 vaddr with
    | .error e => .error e
    | .ok frame => .ok (status, frame)

/-- The active directory is the kernel directory, in frame 1, with its mirror in entry
1023; its entry 1 names the page table in frame 2, whose entry 1 holds `0x5000`: frame 5
with the present bit clear. The virtual address `0x401000` has directory index 1 and
table index 1. -/
def stale_state : PagingState :=
  { mem := fun f i =>
      if f = 1 then (if i = 1023 then 0x1003 else if i = 1 then 0x2003 else 0)
      else if f = 2 then (if i = 1 then 0x5000 else 0)
      else 0,
    cr3 := 1, kernel_pd := 1, frames := boot_state }

/-- The active directory, in frame 1, carries its mirror in entry 1023, and its entry 5
names frame 1 as well: the directory is its own page table for the addresses of
directory index 5. The virtual address `0x1405000` has directory index 5 and table
index 5. -/
def alias_state : PagingState :=
  { mem := fun f i =>
      if f = 1 then (if i = 1023 then 0x1003 else if i = 5 then 0x1003 else 0)
      else 0,
    cr3 := 1, kernel_pd := 1, frames := boot_state }

/-- The call `pd_map_page(vaddr, frame_id, rw)` followed by `pd_get_frame(other)`: the
status of the first and the frame returned by the second. -/
def pd_map_then_get_at (s : PagingState) (vaddr frame_id : Nat) (rw : Bool) (other : Nat) :
    Except Trap (Nat × Nat) :=
  match pd_map_page s vaddr frame_id rw with
  | .error e => .error e
  | .ok (s1, status) =>
    match pd_get_frame s1 other with
    | .error e => .error e
    | .ok frame => .ok (status, frame)

/-- An allocator over 64 frames with frames 0 and 1 used. -/
def two_used_state : FrameState :=
  { frame_bitset := bitset_of_word 3, nframes := 64, nused_frames := 2,
    begin_search_at := 0 }

/-- The active directory is the kernel directory, in frame 1, with its mirror and no
other entry. Frames 0 and 1 are used; frame 2 is free and still holds, in word 7, the
value `0x9001` that an earlier owner left there. The virtual addresses `0x800000` and
`0x807000` have directory index 2 and table indices 0 and 7. -/
def fresh_state : PagingState :=
  { mem := fun f i =>
      if f = 1 then (if i = 1023 then 0x1003 else 0)
      else if f = 2 then (if i = 7 then 0x9001 else 0)
      else 0,
    cr3 := 1, kernel_pd := 1, frames := two_used_state }

/-- The kernel directory is in frame 1, with its mirror `0x1003` and a page table in
entry 900; the active directory is a process directory in frame 2, with its own mirror
`0x2003` and nothing yet in entry 900. -/
def process_state : PagingState :=
  { mem := fun f i =>
      if f = 1 then (if i = 1023 then 0x1003 else if i = 900 then 0x7003 else 0)
      else if f = 2 then (if i = 1023 then 0x2003 else 0)
      else 0,
    cr3 := 2, kernel_pd := 1, frames := two_used_state }

/-- The two calls of `kmain` that bring up memory management (lines 189 to 195):
`frame_init_allocator(total_ram, &kernel_data_end)` and then
`paging_setup(kernel_data_end)` with the updated end of kernel data. The static objects
`kernel_pd` and `kernel_pt0` lie in the frames of those names, `bitmap` is the memory from
the end of the kernel image on and `mem` the contents of the frames. -/
def kmain_memory_setup (mem : Nat → Nat → Nat) (bitmap : Nat → Nat)
    (total_ram k_end_addr stack_protector kernel_pd kernel_pt0 : Nat) :
    Except Trap PagingState :=
  let r := frame_init_allocator bitmap total_ram k_end_addr
  paging_setup stack_protector kernel_pt0
    { mem := mem, cr3 := kernel_pd, kernel_pd := kernel_pd, frames := r.1 } r.2

/-- What the boot claims look at in a paging state: whether frames `g` and `g + 1` are
marked used, the counter of used frames, and entries `g` and `g + 1` of the table in frame
`kernel_pt0`. -/
def guard_view (kernel_pt0 g : Nat) (s : PagingState) :
    Bool × Bool × Nat × Nat × Nat :=
  (frame_bit s.frames g, frame_bit s.frames (g + 1), s.frames.nused_frames,
    s.mem kernel_pt0 g, s.mem kernel_pt0 (g + 1))

/-- The descriptor `pagedir_t` of a page directory: the physical address of the
directory. The mutex is left out. -/
structure pagedir_t where
  phys_addr : Nat
  deriving DecidableEq, Repr

/-- The loop `for (i = 0; i < N_PAGES_IN_PT; i++) pt->page[i] = 0;` of `create_pagedir`,
run for `i < k`, with `pt = (pagetable_t*)temp`: every store goes through the MMU. -/
def create_pagedir_zero (temp : Nat) (s : PagingState) : Nat → Except Trap PagingState
  | 0 => .ok s
  | k + 1 =>
    match create_pagedir_zero temp s k with
    | .error e => .error e
    | .ok t => store32 t (temp + 4 * k) 0

/-- The loop `pt->page[i] = kernel_pd.page[i]` of `create_pagedir`, run for
`FIRST_KERNEL_PT ≤ i < FIRST_KERNEL_PT + k`; `kernel_pd` is read in its frame. -/
def create_pagedir_copy (temp : Nat) (s : PagingState) : Nat → Except Trap PagingState
  | 0 => .ok s
  | k + 1 =>
    match create_pagedir_copy temp s k with
    | .error e => .error e
    | .ok t =>
      store32 t (temp + 4 * (FIRST_KERNEL_PT + k)) (t.mem t.kernel_pd (FIRST_KERNEL_PT + k))

/-- Lines 247 to 258 of `create_pagedir`: the new directory is zeroed, gets the kernel
entries `FIRST_KERNEL_PT .. N_PAGES_IN_PT - 2` and then its mirror entry, all through the
temporary mapping at `temp`. -/
def create_pagedir_fill (temp phys_addr : Nat) (s : PagingState) : Except Trap PagingState :=
  match create_pagedir_zero temp s N_PAGES_IN_PT with
  | .error e => .error e
  | .ok s1 =>
    match create_pagedir_copy temp s1 (N_PAGES_IN_PT - 1 - FIRST_KERNEL_PT) with
    | .error e => .error e
    | .ok s2 =>
      store32 s2 (temp + 4 * (N_PAGES_IN_PT - 1)) (phys_addr ||| PTE_PRESENT ||| PTE_RW)

/-- Modelled from the spec: `region_free_unmap` of the region allocator, which is not
among the sources. For the one-page region of `create_pagedir` the spec says that it
"unmaps (but does not free the underlying frame of) the temporary page"; the records of
the region allocator are not part of the state. -/
def region_free_unmap (s : PagingState) (ptr : Nat) : Except Trap PagingState :=
  pd_unmap_page s ptr

/-- The error path of `create_pagedir`: `if (pd_phys != 0) frame_free(pd_phys, 1);`. The
calls `kfree(pd)` and `region_free(temp)` act on the heap and on the region allocator,
which are not part of the state. -/
def create_pagedir_error (s : PagingState) (pd_phys : Nat) : PagingState :=
  if pd_phys ≠ 0 then { s with frames := frame_free s.frames pd_phys 1 } else s

/-- The function `create_pagedir()`. The heap and the region allocator are not among the
sources: `pd` is the pointer that `kmalloc(sizeof(pagedir_t))` returns and `temp` the
address that `region_alloc(PAGE_SIZE, 0, 0)` returns (0 for a failure), and neither call
touches the paging state. The result is the new state and the descriptor, `none` for the
null pointer. -/
def create_pagedir (s : PagingState) (pd temp : Nat) :
    Except Trap (PagingState × Option pagedir_t) :=
  let pd_phys := (frame_alloc s.frames 1).2
  let s1 : PagingState := { s with frames := (frame_alloc s.frames 1).1 }
  if pd_phys = 0 then .ok (create_pagedir_error s1 pd_phys, none)
  else if pd = 0 then .ok (create_pagedir_error s1 pd_phys, none)
  else if temp = 0 then .ok (create_pagedir_error s1 pd_phys, none)
  else
    match pd_map_page s1 temp pd_phys true with
    | .error e => .error e
    | .ok (s2, error) =>
      if error ≠ 0 then .ok (create_pagedir_error s2 pd_phys, none)
      else
        let phys_addr := (pd_phys * PAGE_SIZE) % 2 ^ 32
        match create_pagedir_fill temp phys_addr s2 with
        | .error e => .error e
        | .ok s3 =>
          match region_free_unmap s3 temp with
          | .error e => .error e
          | .ok s4 => .ok (s4, some { phys_addr := phys_addr })

/-- The states `s` and `t` differ at most in the contents of frame `p`. -/
def same_outside (p : Nat) (s t : PagingState) : Prop :=
  t.cr3 = s.cr3 ∧ t.kernel_pd = s.kernel_pd ∧ t.frames = s.frames ∧
    ∀ f i, f ≠ p → t.mem f i = s.mem f i

/-- The page at `temp` is a window onto frame `p`: the walk for `temp` ends in `p`, and
`p` is neither the active directory nor the page table that the walk goes through. -/
def window (s : PagingState) (temp p : Nat) : Prop :=
  mmu_walk s temp = some p ∧ p ≠ s.cr3 ∧
    p ≠ s.mem s.cr3 (PT_OF_ADDR temp) >>> PTE_FRAME_SHIFT

/-! ## The byte copies of `kernel/lib/string.c`

Memory is a function from addresses to bytes. Pointer arithmetic is plain addition: the
buffers are objects of the 32-bit address space, so no address of theirs wraps. Both
functions return their first argument; the model gives the memory they leave. -/

/-- The loop of `memcpy` over `uint32_t` words, run for `i < k`: `d[i] = s[i]` loads the
four bytes at `src + 4 * i` and then stores them at `dest + 4 * i`. -/
def memcpy_words (mem : Nat → Nat) (dest src : Nat) : Nat → (Nat → Nat)
  | 0 => mem
  | i + 1 =>
    let m := memcpy_words mem dest src i
    let b0 := m (src + 4 * i)
    let b1 := m (src + 4 * i + 1)
    let b2 := m (src + 4 * i + 2)
    let b3 := m (src + 4 * i + 3)
    Function.update (Function.update (Function.update (Function.update m
      (dest + 4 * i) b0) (dest + 4 * i + 1) b1) (dest + 4 * i + 2) b2) (dest + 4 * i + 3) b3

/-- The loop of `memcpy` over the last `count % 4` bytes, run for
`start ≤ i < start + k`: `dest[i] = src[i]`. -/
def memcpy_tail (mem : Nat → Nat) (dest src start : Nat) : Nat → (Nat → Nat)
  | 0 => mem
  | k + 1 =>
    let m := memcpy_tail mem dest src start k
    Function.update m (dest + (start + k)) (m (src + (start + k)))

/-- The function `memcpy(vd, vs, count)`. -/
def memcpy (mem : Nat → Nat) (vd vs count : Nat) : Nat → Nat :=
  let f := count % 4
  let n := count / 4
  let m := memcpy_words mem vd vs n
  if f ≠ 0 then memcpy_tail m vd vs (count - f) f else m

/-- The first loop of `memmove`, run for `i < k`: `dest[i] = src[i]`. -/
def memmove_up (mem : Nat → Nat) (dest src : Nat) : Nat → (Nat → Nat)
  | 0 => mem
  | k + 1 =>
    let m := memmove_up mem dest src k
    Function.update m (dest + k) (m (src + k))

/-- The second loop of `memmove`, run for `i < k`: `dest[count - i] = src[count - i]`
(`i < count`, so the subtraction does not wrap). -/
def memmove_down (mem : Nat → Nat) (dest src count : Nat) : Nat → (Nat → Nat)
  | 0 => mem
  | k + 1 =>
    let m := memmove_down mem dest src count k
    Function.update m (dest + (count - k)) (m (src + (count - k)))

/-- The function `memmove(vd, vs, count)`. -/
def memmove (mem : Nat → Nat) (vd vs count : Nat) : Nat → Nat :=
  if vd < vs then memmove_up mem vd vs count
  else memmove_down mem vd vs count count

/-- The bytes `mem[base], ..., mem[base + n - 1]`. -/
def bytes_at (mem : Nat → Nat) (base n : Nat) : List Nat :=
  (List.range n).map (fun i => mem (base + i))

/-- A source buffer `1, 2, 3` at `0x100`, followed by the byte `0x77`; a destination
buffer of three zero bytes at `0x200`, followed by the byte `0xAA`. -/
def copy_mem : Nat → Nat := fun a =>
  if a = 0x100 then 1 else if a = 0x101 then 2 else if a = 0x102 then 3
  else if a = 0x103 then 0x77 else if a = 0x203 then 0xAA else 0

/-! ## Bit-level lemmas -/

theorem to_test_testBit (n j k : Nat) (hn : n ≤ 32) (hj : j + n ≤ 32) :
    (to_test n j).testBit k = decide (j ≤ k ∧ k < j + n) := by
  have h : (0xFFFFFFFF : Nat) = 2 ^ 32 - 1 := by norm_num
  unfold to_test
  rw [Nat.testBit_mod_two_pow, Nat.testBit_shiftLeft, Nat.testBit_shiftRight, h,
    Nat.testBit_two_pow_sub_one]
  rw [Bool.eq_iff_iff]
  simp only [Bool.and_eq_true, decide_eq_true_eq, ge_iff_le]
  omega

theorem land_eq_zero_iff (a b : Nat) :
    a &&& b = 0 ↔ ∀ k, b.testBit k = true → a.testBit k = false := by
  constructor
  · intro h k hb
    have := congrArg (fun x => Nat.testBit x k) h
    simp only [Nat.testBit_land, Nat.zero_testBit, hb, Bool.and_true] at this
    exact this
  · intro h
    apply Nat.eq_of_testBit_eq
    intro k
    rw [Nat.testBit_land, Nat.zero_testBit]
    cases hb : b.testBit k
    · simp
    · simp [h k hb]

/-- The mask at offset `j` is free in the word `w` exactly when the `n` bits of `w`
from `j` on are clear. -/
theorem land_to_test_eq_zero_iff (w n j : Nat) (hn : n ≤ 32) (hj : j + n ≤ 32) :
    w &&& to_test n j = 0 ↔ ∀ k, k < n → w.testBit (j + k) = false := by
  rw [land_eq_zero_iff]
  constructor
  · intro h k hk
    apply h
    rw [to_test_testBit n j _ hn hj]
    simp only [decide_eq_true_eq]
    omega
  · intro h k hk
    rw [to_test_testBit n j _ hn hj] at hk
    simp only [decide_eq_true_eq] at hk
    have := h (k - j) (by omega)
    rwa [show j + (k - j) = k by omega] at this

/-! ## The search of `frame_alloc` -/

theorem frame_alloc_word_some (w n : Nat) :
    ∀ (k j0 j : Nat), frame_alloc_word w n k j0 = some j →
      j0 ≤ j ∧ j < j0 + k ∧ w &&& to_test n j = 0 ∧
        ∀ j', j0 ≤ j' → j' < j → w &&& to_test n j' ≠ 0 := by
  intro k
  induction k with
  | zero => intro j0 j h; simp [frame_alloc_word] at h
  | succ k ih =>
    intro j0 j h
    unfold frame_alloc_word at h
    split at h
    · rename_i hz
      have hj : j0 = j := by simpa using h
      subst hj
      exact ⟨le_refl _, by omega, hz, fun j' h1 h2 => by omega⟩
    · rename_i hz
      obtain ⟨h1, h2, h3, h4⟩ := ih (j0 + 1) j h
      refine ⟨by omega, by omega, h3, ?_⟩
      intro j' hj1 hj2
      by_cases hje : j' = j0
      · subst hje; exact hz
      · exact h4 j' (by omega) hj2

theorem frame_alloc_word_none (w n : Nat) :
    ∀ (k j0 : Nat), frame_alloc_word w n k j0 = none →
      ∀ j', j0 ≤ j' → j' < j0 + k → w &&& to_test n j' ≠ 0 := by
  intro k
  induction k with
  | zero => intro j0 _ j' h1 h2; omega
  | succ k ih =>
    intro j0 h j' hj1 hj2
    unfold frame_alloc_word at h
    split at h
    · simp at h
    · rename_i hz
      by_cases hje : j' = j0
      · subst hje; exact hz
      · exact ih (j0 + 1) h j' (by omega) (by omega)

/-- A fully allocated word has no free mask of `n ≥ 1` bits. -/
theorem full_word_no_fit (n j : Nat) (h1 : 1 ≤ n) (hj : j + n ≤ 32) :
    (0xFFFFFFFF : Nat) &&& to_test n j ≠ 0 := by
  intro h
  have h32 : n ≤ 32 := by omega
  have := (land_to_test_eq_zero_iff _ n j h32 hj).1 h 0 (by omega)
  have hF : (0xFFFFFFFF : Nat) = 2 ^ 32 - 1 := by norm_num
  rw [hF, Nat.testBit_two_pow_sub_one] at this
  simp only [Nat.add_zero, decide_eq_false_iff_not] at this
  omega

theorem frame_alloc_loop_spec (n : Nat) (h1 : 1 ≤ n) (h32 : n ≤ 32) :
    ∀ (k i : Nat) (s : FrameState),
      (frame_alloc_loop n k i s).1.nframes = s.nframes ∧
      (AllocFail n s i k (frame_alloc_loop n k i s) ∨
        ∃ i1 j1, AllocHit n s i k (frame_alloc_loop n k i s) i1 j1) := by
  intro k
  induction k with
  | zero =>
    intro i s
    refine ⟨rfl, Or.inl ⟨rfl, rfl, rfl, ?_⟩⟩
    intro i' h1 h2; omega
  | succ k ih =>
    intro i s
    unfold frame_alloc_loop
    split
    · rename_i hfull
      generalize hs1 : (if i = s.begin_search_at then
          ({ s with begin_search_at := (s.begin_search_at + 1) % 2 ^ 32 } : FrameState)
        else s) = s1
      have hb : s1.frame_bitset = s.frame_bitset := by
        rw [← hs1]; split <;> rfl
      have hu : s1.nused_frames = s.nused_frames := by
        rw [← hs1]; split <;> rfl
      have hf : s1.nframes = s.nframes := by
        rw [← hs1]; split <;> rfl
      obtain ⟨ihn, ihr⟩ := ih (i + 1) s1
      refine ⟨ihn.trans hf, ?_⟩
      have hskip : ∀ j', j' + n ≤ 32 → s.frame_bitset i &&& to_test n j' ≠ 0 := by
        intro j' hj'
        rw [hfull]
        exact full_word_no_fit n j' h1 hj'
      rcases ihr with ⟨a, b, c, d⟩ | ⟨i1, j1, a, b, c, d, e, f, g, h, l⟩
      · left
        refine ⟨a.trans hb, b.trans hu, c, ?_⟩
        intro i' hi1 hi2 j' hj'
        by_cases hie : i' = i
        · subst hie; exact hskip j' hj'
        · rw [← hb]; exact d i' (by omega) (by omega) j' hj'
      · right
        refine ⟨i1, j1, by omega, by omega, c, by rw [← hb]; exact d, ?_, ?_, ?_, ?_, l⟩
        · intro i' hi1 hi2 j' hj'
          by_cases hie : i' = i
          · subst hie; exact hskip j' hj'
          · rw [← hb]; exact e i' (by omega) hi2 j' hj'
        · intro j' hj'; rw [← hb]; exact f j' hj'
        · rw [g, hb]
        · rw [h, hu]
    · rename_i hfull
      split
      · rename_i j hw
        obtain ⟨_, hj2, hj3, hj4⟩ := frame_alloc_word_some _ _ _ _ _ hw
        refine ⟨rfl, Or.inr ⟨i, j, le_refl _, by omega, by omega, hj3, ?_, ?_, rfl, rfl, rfl⟩⟩
        · intro i' hi1 hi2; omega
        · intro j' hj'; exact hj4 j' (Nat.zero_le _) hj'
      · rename_i hw
        have hnone := frame_alloc_word_none _ _ _ _ hw
        obtain ⟨ihn, ihr⟩ := ih (i + 1) s
        refine ⟨ihn, ?_⟩
        have hskip : ∀ j', j' + n ≤ 32 → s.frame_bitset i &&& to_test n j' ≠ 0 := by
          intro j' hj'
          exact hnone j' (Nat.zero_le _) (by omega)
        rcases ihr with ⟨a, b, c, d⟩ | ⟨i1, j1, a, b, c, d, e, f, g, h, l⟩
        · left
          refine ⟨a, b, c, ?_⟩
          intro i' hi1 hi2 j' hj'
          by_cases hie : i' = i
          · subst hie; exact hskip j' hj'
          · exact d i' (by omega) (by omega) j' hj'
        · right
          refine ⟨i1, j1, by omega, by omega, c, d, ?_, f, g, h, l⟩
          intro i' hi1 hi2 j' hj'
          by_cases hie : i' = i
          · subst hie; exact hskip j' hj'
          · exact e i' (by omega) hi2 j' hj'

/-- A successful search stops below `INDEX_FROM_BIT(nframes)`, so with a 32-bit `nframes`
the returned id is `32 * i1 + j1` without wrap-around. -/
theorem frame_alloc_cases (s : FrameState) (n : Nat) (h1 : 1 ≤ n) (h32 : n ≤ 32) :
    (frame_alloc s n).1.nframes = s.nframes ∧
    (AllocFail n s s.begin_search_at (INDEX_FROM_BIT s.nframes - s.begin_search_at)
        (frame_alloc s n) ∨
      ∃ i1 j1, i1 < INDEX_FROM_BIT s.nframes ∧
        AllocHit n s s.begin_search_at (INDEX_FROM_BIT s.nframes - s.begin_search_at)
          (frame_alloc s n) i1 j1) := by
  have hn : ¬ n > 32 := by omega
  unfold frame_alloc
  rw [if_neg hn]
  obtain ⟨a, b⟩ := frame_alloc_loop_spec n h1 h32
    (INDEX_FROM_BIT s.nframes - s.begin_search_at) s.begin_search_at s
  refine ⟨a, ?_⟩
  rcases b with b | ⟨i1, j1, b⟩
  · exact Or.inl b
  · refine Or.inr ⟨i1, j1, ?_, b⟩
    have hlo := b.1
    have hhi := b.2.1
    omega

/-- The bits of the bitmap after a word `i1` has been or-ed with the mask at `j1`. -/
theorem frame_bit_after_hit (s t : FrameState) (n i1 j1 : Nat) (h32 : n ≤ 32)
    (hj : j1 + n ≤ 32)
    (ht : t.frame_bitset =
      Function.update s.frame_bitset i1 (s.frame_bitset i1 ||| to_test n j1)) (b : Nat) :
    frame_bit t b =
      (frame_bit s b || decide (i1 * 32 + j1 ≤ b ∧ b < i1 * 32 + j1 + n)) := by
  unfold frame_bit INDEX_FROM_BIT OFFSET_FROM_BIT
  rw [ht]
  by_cases hb : b / (8 * 4) = i1
  · rw [hb, Function.update_same, Nat.testBit_lor, to_test_testBit n j1 _ h32 hj]
    congr 1
    rw [decide_eq_decide]
    omega
  · rw [Function.update_noteq hb]
    have : ¬ (i1 * 32 + j1 ≤ b ∧ b < i1 * 32 + j1 + n) := by omega
    simp [this]

/-- The bits of the run found by the search were clear before the call. -/
theorem frame_bit_before_hit (s : FrameState) (n i1 j1 : Nat) (h32 : n ≤ 32)
    (hj : j1 + n ≤ 32) (hz : s.frame_bitset i1 &&& to_test n j1 = 0) (b : Nat)
    (hb1 : i1 * 32 + j1 ≤ b) (hb2 : b < i1 * 32 + j1 + n) : frame_bit s b = false := by
  unfold frame_bit INDEX_FROM_BIT OFFSET_FROM_BIT
  have hi : b / (8 * 4) = i1 := by omega
  have ho : b % (8 * 4) = j1 + (b - (i1 * 32 + j1)) := by omega
  rw [hi, ho]
  exact (land_to_test_eq_zero_iff _ n j1 h32 hj).1 hz _ (by omega)

/-! ## Counting the set bits -/

theorem card_filter_add_run (p q : Nat → Bool) (N r n : Nat)
    (hq : ∀ b, q b = (p b || decide (r ≤ b ∧ b < r + n)))
    (hclear : ∀ b, r ≤ b → b < r + n → p b = false) (hin : r + n ≤ N) :
    ((Finset.range N).filter (fun b => q b = true)).card =
      ((Finset.range N).filter (fun b => p b = true)).card + n := by
  have hset : (Finset.range N).filter (fun b => q b = true) =
      (Finset.range N).filter (fun b => p b = true) ∪ Finset.Ico r (r + n) := by
    ext b
    simp only [Finset.mem_filter, Finset.mem_range, Finset.mem_union, Finset.mem_Ico, hq b,
      Bool.or_eq_true, decide_eq_true_eq]
    constructor
    · rintro ⟨h1, h2 | h2⟩
      · exact Or.inl ⟨h1, h2⟩
      · exact Or.inr h2
    · rintro (⟨h1, h2⟩ | h2)
      · exact ⟨h1, Or.inl h2⟩
      · exact ⟨by omega, Or.inr h2⟩
  have hdis : Disjoint ((Finset.range N).filter (fun b => p b = true))
      (Finset.Ico r (r + n)) := by
    rw [Finset.disjoint_left]
    intro b hb hb2
    simp only [Finset.mem_filter, Finset.mem_range] at hb
    simp only [Finset.mem_Ico] at hb2
    have := hclear b hb2.1 hb2.2
    rw [hb.2] at this
    exact Bool.noConfusion this
  rw [hset, Finset.card_union_of_disjoint hdis, Nat.card_Ico]
  omega

theorem card_filter_erase (p q : Nat → Bool) (N B : Nat)
    (hq : ∀ b, q b = (p b && decide (b ≠ B))) (hB : B < N) (hp : p B = true) :
    ((Finset.range N).filter (fun b => q b = true)).card + 1 =
      ((Finset.range N).filter (fun b => p b = true)).card := by
  have hset : (Finset.range N).filter (fun b => q b = true) =
      ((Finset.range N).filter (fun b => p b = true)).erase B := by
    ext b
    simp only [Finset.mem_filter, Finset.mem_range, Finset.mem_erase, hq b,
      Bool.and_eq_true, decide_eq_true_eq]
    tauto
  have hmem : B ∈ (Finset.range N).filter (fun b => p b = true) := by
    simp only [Finset.mem_filter, Finset.mem_range]
    exact ⟨hB, hp⟩
  rw [hset, Finset.card_erase_of_mem hmem]
  have : 0 < ((Finset.range N).filter (fun b => p b = true)).card :=
    Finset.card_pos.2 ⟨B, hmem⟩
  omega

theorem card_filter_lt (p : Nat → Bool) (N k : Nat) (hk : k ≤ N)
    (hp : ∀ b, b < N → (p b = true ↔ b < k)) :
    ((Finset.range N).filter (fun b => p b = true)).card = k := by
  have hset : (Finset.range N).filter (fun b => p b = true) = Finset.range k := by
    ext b
    simp only [Finset.mem_filter, Finset.mem_range]
    constructor
    · rintro ⟨h1, h2⟩
      exact (hp b h1).1 h2
    · intro h
      exact ⟨by omega, (hp b (by omega)).2 h⟩
  rw [hset, Finset.card_range]

theorem popcount_le (s : FrameState) : popcount s ≤ 32 * bitset_words s := by
  unfold popcount
  calc _ ≤ (Finset.range (32 * bitset_words s)).card := Finset.card_filter_le _ _
    _ = _ := Finset.card_range _

theorem popcount_congr (s t : FrameState) (hb : t.frame_bitset = s.frame_bitset)
    (hn : t.nframes = s.nframes) : popcount t = popcount s := by
  unfold popcount bitset_words frame_bit
  rw [hb, hn]

/-- The words scanned by `frame_alloc` lie inside the bitmap. -/
theorem index_le_bitset_words (s : FrameState) (hnf : s.nframes < 2 ^ 32) :
    INDEX_FROM_BIT s.nframes ≤ bitset_words s := by
  unfold INDEX_FROM_BIT bitset_words ALIGN4_UP
  omega

theorem bitset_words_le (s : FrameState) (hnf : s.nframes ≤ 2 ^ 20) :
    32 * bitset_words s < 2 ^ 32 := by
  unfold bitset_words ALIGN4_UP
  omega

theorem frame_alloc_preserves_F1 (s : FrameState) (n : Nat) (hnf : s.nframes ≤ 2 ^ 20)
    (h1 : 1 ≤ n) (h32 : n ≤ 32) (hF : F1 s) : F1 (frame_alloc s n).1 := by
  have hnf2 : s.nframes < 2 ^ 32 := by omega
  obtain ⟨hn, hc⟩ := frame_alloc_cases s n h1 h32
  unfold F1 at *
  rcases hc with ⟨a, b, _, _⟩ | ⟨i1, j1, hi1, _, _, hj, hz, _, _, hbs, hu, _⟩
  · rw [popcount_congr s _ a hn, b, hF]
  · have hw : bitset_words (frame_alloc s n).1 = bitset_words s := by
      unfold bitset_words; rw [hn]
    have hcard : popcount (frame_alloc s n).1 = popcount s + n := by
      unfold popcount
      rw [hw]
      apply card_filter_add_run (frame_bit s) (frame_bit (frame_alloc s n).1)
        (32 * bitset_words s) (i1 * 32 + j1) n
      · exact frame_bit_after_hit s _ n i1 j1 h32 hj hbs
      · exact frame_bit_before_hit s n i1 j1 h32 hj hz
      · have := index_le_bitset_words s hnf2
        omega
    have hle := popcount_le (frame_alloc s n).1
    rw [hw] at hle
    have hlt := bitset_words_le s hnf
    rw [hu, hcard, ← hF]
    exact (Nat.mod_eq_of_lt (by omega)).symm

/-! ## The loop of `frame_free` -/

theorem frame_free_loop_succ (base n : Nat) (s : FrameState) (x : Nat) :
    frame_free_loop base n s (x + 1) = frame_free_step base n (frame_free_loop base n s x) :=
  rfl

theorem land_one_shiftLeft_ne_zero (w k : Nat) :
    w &&& (0x1 <<< k) ≠ 0 ↔ w.testBit k = true := by
  rw [Nat.one_shiftLeft, Ne, land_eq_zero_iff]
  constructor
  · intro h
    by_contra hc
    apply h
    intro k' hk'
    rw [Nat.testBit_two_pow] at hk'
    simp only [decide_eq_true_eq] at hk'
    subst hk'
    simpa using hc
  · intro h hall
    have := hall k (by rw [Nat.testBit_two_pow]; simp)
    rw [h] at this
    exact Bool.noConfusion this

theorem testBit_clear (w k j : Nat) (hj : j < 32) :
    (w &&& (0xFFFFFFFF ^^^ (0x1 <<< k))).testBit j = (w.testBit j && decide (j ≠ k)) := by
  have hF : (0xFFFFFFFF : Nat) = 2 ^ 32 - 1 := by norm_num
  rw [Nat.testBit_land, Nat.testBit_xor, hF, Nat.testBit_two_pow_sub_one, Nat.one_shiftLeft,
    Nat.testBit_two_pow]
  by_cases h : k = j
  · subst h; simp [hj]
  · have h' : j ≠ k := fun e => h e.symm
    simp [hj, h, h']

theorem frame_free_bit_index (base n : Nat) :
    INDEX_FROM_BIT (frame_free_bit base n) = (base + n / (8 * 4)) % 2 ^ 32 := by
  unfold INDEX_FROM_BIT frame_free_bit frame_free_word
  omega

theorem frame_free_bit_offset (base n : Nat) :
    OFFSET_FROM_BIT (frame_free_bit base n) = ((base + n % (8 * 4)) % 2 ^ 32) % 32 := by
  unfold OFFSET_FROM_BIT frame_free_bit frame_free_word
  omega

/-- One iteration of the loop, written with the bit `frame_free_bit base n`. -/
theorem frame_free_step_eq (base n : Nat) (t : FrameState) :
    frame_free_step base n t =
      if t.frame_bitset (INDEX_FROM_BIT (frame_free_bit base n)) &&&
          (0x1 <<< OFFSET_FROM_BIT (frame_free_bit base n)) ≠ 0 then
        { t with
          frame_bitset :=
            Function.update t.frame_bitset (INDEX_FROM_BIT (frame_free_bit base n))
              (t.frame_bitset (INDEX_FROM_BIT (frame_free_bit base n)) &&&
                (0xFFFFFFFF ^^^ (0x1 <<< OFFSET_FROM_BIT (frame_free_bit base n))))
          nused_frames := (t.nused_frames + (2 ^ 32 - 1)) % 2 ^ 32 }
      else t := by
  rw [frame_free_bit_index, frame_free_bit_offset]
  rfl

/-- The effect of one iteration on the bits and on the counter: the bit
`frame_free_bit base n` is cleared, and counted when it was set. -/
theorem frame_free_step_spec (base n : Nat) (t : FrameState) :
    (∀ b, frame_bit (frame_free_step base n t) b =
      (frame_bit t b && decide (b ≠ frame_free_bit base n))) ∧
    (frame_free_step base n t).nframes = t.nframes ∧
    (frame_free_step base n t).begin_search_at = t.begin_search_at ∧
    (frame_free_step base n t).nused_frames =
      (if frame_bit t (frame_free_bit base n) = true then
        (t.nused_frames + (2 ^ 32 - 1)) % 2 ^ 32 else t.nused_frames) := by
  rw [frame_free_step_eq]
  generalize frame_free_bit base n = B
  by_cases hbit : frame_bit t B = true
  · have hcond : t.frame_bitset (INDEX_FROM_BIT B) &&& (0x1 <<< OFFSET_FROM_BIT B) ≠ 0 :=
      (land_one_shiftLeft_ne_zero _ _).2 hbit
    rw [if_pos hcond, if_pos hbit]
    refine ⟨?_, rfl, rfl, rfl⟩
    intro b
    unfold frame_bit
    show (Function.update t.frame_bitset (INDEX_FROM_BIT B) _ (INDEX_FROM_BIT b)).testBit _ = _
    rw [Function.update_apply]
    by_cases hi : INDEX_FROM_BIT b = INDEX_FROM_BIT B
    · rw [if_pos hi, testBit_clear _ _ _ (by unfold OFFSET_FROM_BIT; omega), hi]
      congr 1
      rw [decide_eq_decide]
      unfold INDEX_FROM_BIT at hi
      unfold OFFSET_FROM_BIT
      omega
    · rw [if_neg hi]
      have hne : b ≠ B := fun e => hi (by rw [e])
      rw [decide_eq_true hne, Bool.and_true]
  · have hcond : ¬ (t.frame_bitset (INDEX_FROM_BIT B) &&& (0x1 <<< OFFSET_FROM_BIT B) ≠ 0) :=
      fun h => hbit ((land_one_shiftLeft_ne_zero _ _).1 h)
    rw [if_neg hcond, if_neg hbit]
    refine ⟨?_, rfl, rfl, rfl⟩
    intro b
    by_cases hb : b = B
    · subst hb
      rw [Bool.not_eq_true] at hbit
      rw [hbit, Bool.false_and]
    · rw [decide_eq_true hb, Bool.and_true]

theorem frame_free_step_preserves_F1 (base n : Nat) (t : FrameState)
    (hnf : t.nframes ≤ 2 ^ 20) (hin : in_bitmap t (frame_free_bit base n)) (hF : F1 t) :
    F1 (frame_free_step base n t) := by
  obtain ⟨hb, hn, _, hu⟩ := frame_free_step_spec base n t
  have hw : bitset_words (frame_free_step base n t) = bitset_words t := by
    unfold bitset_words; rw [hn]
  unfold F1 at *
  generalize frame_free_bit base n = B at *
  by_cases hbit : frame_bit t B = true
  · rw [if_pos hbit] at hu
    have hcard : popcount (frame_free_step base n t) + 1 = popcount t := by
      unfold popcount
      rw [hw]
      exact card_filter_erase (frame_bit t) _ _ _ hb hin hbit
    have hle := popcount_le t
    have hlt := bitset_words_le t hnf
    rw [hu, ← hF]
    omega
  · rw [if_neg hbit] at hu
    rw [hu, ← hF]
    unfold popcount
    rw [hw]
    congr 1
    apply Finset.filter_congr
    intro b _
    rw [hb b]
    by_cases hbe : b = B
    · subst hbe
      rw [Bool.not_eq_true] at hbit
      rw [hbit, Bool.false_and]
    · rw [decide_eq_true hbe, Bool.and_true]

theorem frame_free_loop_preserves_F1 (base n : Nat) (s : FrameState)
    (hnf : s.nframes ≤ 2 ^ 20) (hin : in_bitmap s (frame_free_bit base n)) (hF : F1 s) :
    ∀ x, (frame_free_loop base n s x).nframes = s.nframes ∧
      F1 (frame_free_loop base n s x) := by
  intro x
  induction x with
  | zero => exact ⟨rfl, hF⟩
  | succ x ih =>
    rw [frame_free_loop_succ]
    obtain ⟨ihn, ihF⟩ := ih
    have hn := (frame_free_step_spec base n (frame_free_loop base n s x)).2.1
    refine ⟨hn.trans ihn, ?_⟩
    apply frame_free_step_preserves_F1 _ _ _ (by rw [ihn]; exact hnf) _ ihF
    unfold in_bitmap bitset_words at *
    rw [ihn]
    exact hin

theorem frame_free_preserves_F1 (s : FrameState) (base n : Nat)
    (hnf : s.nframes ≤ 2 ^ 20) (hin : in_bitmap s (frame_free_bit base n)) (hF : F1 s) :
    F1 (frame_free s base n) := by
  have h := (frame_free_loop_preserves_F1 base n s hnf hin hF n).2
  unfold frame_free
  simp only []
  split
  · unfold F1 at *
    rw [← h]
    exact popcount_congr _ _ rfl rfl
  · exact h

/-- The bit that `frame_free(base, n)` accesses lies inside the bitmap exactly when the
word index `base + n/32` does. -/
theorem in_bitmap_frame_free_bit (s : FrameState) (base n : Nat) :
    in_bitmap s (frame_free_bit base n) ↔ (base + n / 32) % 2 ^ 32 < bitset_words s := by
  unfold in_bitmap frame_free_bit frame_free_word
  omega

/-! ## The loops of `frame_init_allocator` -/

theorem frame_init_zero_spec (bs : Nat → Nat) (k i : Nat) :
    frame_init_zero bs k i = if i < k then 0 else bs i := by
  induction k with
  | zero => simp [frame_init_zero]
  | succ k ih =>
    unfold frame_init_zero
    rw [Function.update_apply, ih]
    by_cases h : i = k
    · subst h; simp
    · rw [if_neg h]
      by_cases h2 : i < k
      · rw [if_pos h2, if_pos (by omega)]
      · rw [if_neg h2, if_neg (by omega)]

theorem testBit_set (w k j : Nat) :
    (w ||| (0x1 <<< k)).testBit j = (w.testBit j || decide (j = k)) := by
  rw [Nat.testBit_lor, Nat.one_shiftLeft, Nat.testBit_two_pow]
  congr 1
  rw [decide_eq_decide]
  exact eq_comm

theorem frame_init_mark_spec (s : FrameState) (hs : s.nused_frames < 2 ^ 32) (k : Nat) :
    (frame_init_mark s k).nframes = s.nframes ∧
    (frame_init_mark s k).begin_search_at = s.begin_search_at ∧
    (frame_init_mark s k).nused_frames = (s.nused_frames + k) % 2 ^ 32 := by
  induction k with
  | zero => exact ⟨rfl, rfl, (Nat.mod_eq_of_lt hs).symm⟩
  | succ k ih =>
    unfold frame_init_mark
    simp only []
    obtain ⟨a, b, c⟩ := ih
    refine ⟨a, b, ?_⟩
    rw [c]
    omega

/-- The number of kernel pages computed by `frame_init_allocator` is below `2 ^ 20`. -/
theorem frame_init_kernel_pages_lt (total_ram kernel_data_end : Nat) :
    frame_init_kernel_pages total_ram kernel_data_end < 2 ^ 20 := by
  unfold frame_init_kernel_pages PAGE_ALIGN_UP PAGE_SIZE
  omega


theorem frame_init_mark_bit (s : FrameState) (k b : Nat) :
    frame_bit (frame_init_mark s k) b = (decide (b < k) || frame_bit s b) := by
  induction k with
  | zero => simp [frame_init_mark]
  | succ k ih =>
    unfold frame_init_mark
    simp only []
    unfold frame_bit at *
    show (Function.update (frame_init_mark s k).frame_bitset (INDEX_FROM_BIT k) _
      (INDEX_FROM_BIT b)).testBit _ = _
    rw [Function.update_apply]
    by_cases hi : INDEX_FROM_BIT b = INDEX_FROM_BIT k
    · rw [if_pos hi, testBit_set, ← hi, ih]
      rw [Bool.eq_iff_iff]
      simp only [Bool.or_eq_true, decide_eq_true_eq]
      unfold INDEX_FROM_BIT at hi
      unfold OFFSET_FROM_BIT
      constructor
      · rintro ((h | h) | h)
        · left; omega
        · right; exact h
        · left; omega
      · rintro (h | h)
        · by_cases hbk : b < k
          · exact Or.inl (Or.inl hbk)
          · right; omega
        · exact Or.inl (Or.inr h)
    · rw [if_neg hi, ih]
      have hne : b ≠ k := fun e => hi (by rw [e])
      rw [Bool.eq_iff_iff]
      simp only [Bool.or_eq_true, decide_eq_true_eq]
      constructor
      · rintro (h | h)
        · left; omega
        · right; exact h
      · rintro (h | h)
        · left; omega
        · right; exact h

/-- A state whose bits below `k` are set and whose other bitmap bits are clear, with
`nused_frames = k`, satisfies F1 whatever its cursor is. -/
theorem F1_of_marked (m : FrameState) (k c : Nat) (hk : k ≤ 32 * bitset_words m)
    (hu : m.nused_frames = k)
    (hbit : ∀ b, b < 32 * bitset_words m → (frame_bit m b = true ↔ b < k)) :
    F1 { m with begin_search_at := c } := by
  unfold F1
  show popcount { m with begin_search_at := c } = m.nused_frames
  rw [hu]
  exact card_filter_lt (frame_bit m) (32 * bitset_words m) k hk hbit

theorem bitset_words_cursor (m : FrameState) (c : Nat) :
    bitset_words { m with begin_search_at := c } = bitset_words m := rfl

theorem frame_init_allocator_fst (mem : Nat → Nat) (total_ram kernel_data_end : Nat) :
    (frame_init_allocator mem total_ram kernel_data_end).1 =
      { frame_init_mark
          (FrameState.mk (frame_init_zero mem (ALIGN4_UP (PAGE_ID total_ram / 8) / 4))
            (PAGE_ID total_ram) 0 0) (frame_init_kernel_pages total_ram kernel_data_end) with
        begin_search_at := INDEX_FROM_BIT (frame_init_kernel_pages total_ram kernel_data_end) } :=
  rfl

theorem frame_init_zero_bit (mem : Nat → Nat) (w nf b : Nat) (hb : b < 32 * w) :
    frame_bit (FrameState.mk (frame_init_zero mem w) nf 0 0) b = false := by
  unfold frame_bit
  show (frame_init_zero mem _ _).testBit _ = false
  rw [frame_init_zero_spec, if_pos]
  · exact Nat.zero_testBit _
  · unfold INDEX_FROM_BIT
    omega

theorem frame_init_allocator_F1 (mem : Nat → Nat) (total_ram kernel_data_end : Nat)
    (hfit : frame_init_kernel_pages total_ram kernel_data_end ≤
      32 * bitset_words (frame_init_allocator mem total_ram kernel_data_end).1) :
    F1 (frame_init_allocator mem total_ram kernel_data_end).1 := by
  have hk := frame_init_kernel_pages_lt total_ram kernel_data_end
  rw [frame_init_allocator_fst] at hfit ⊢
  rw [bitset_words_cursor] at hfit
  generalize frame_init_kernel_pages total_ram kernel_data_end = kp at *
  obtain ⟨hn, _, hu⟩ := frame_init_mark_spec
    (FrameState.mk (frame_init_zero mem (ALIGN4_UP (PAGE_ID total_ram / 8) / 4))
      (PAGE_ID total_ram) 0 0) (Nat.two_pow_pos 32) kp
  have hbit := frame_init_mark_bit
    (FrameState.mk (frame_init_zero mem (ALIGN4_UP (PAGE_ID total_ram / 8) / 4))
      (PAGE_ID total_ram) 0 0) kp
  have hw : bitset_words (frame_init_mark
      (FrameState.mk (frame_init_zero mem (ALIGN4_UP (PAGE_ID total_ram / 8) / 4))
        (PAGE_ID total_ram) 0 0) kp) = ALIGN4_UP (PAGE_ID total_ram / 8) / 4 := by
    unfold bitset_words
    rw [hn]
  have hzb := frame_init_zero_bit mem (ALIGN4_UP (PAGE_ID total_ram / 8) / 4)
    (PAGE_ID total_ram)
  generalize frame_init_mark
    (FrameState.mk (frame_init_zero mem (ALIGN4_UP (PAGE_ID total_ram / 8) / 4))
      (PAGE_ID total_ram) 0 0) kp = m at *
  apply F1_of_marked m kp _ hfit
  · rw [hu, Nat.zero_add, Nat.mod_eq_of_lt (by omega)]
  · intro b hb
    rw [hw] at hb
    rw [hbit, hzb b hb]
    simp

/-! ## Claims about the frame allocator -/

/-- C1 (as stated, refuted): with `nused_frames = 0xFFFFFFFF` and frame 0 used,
`frame_alloc(1)` returns frame 1, yet the 32-bit counter wraps to 0 instead of growing
by 1. -/
theorem frame_alloc_counter_wraps :
    wrap_state.wf ∧ (frame_alloc wrap_state 1).2 = 1 ∧
      (frame_alloc wrap_state 1).1.nused_frames = 0 ∧
      (frame_alloc wrap_state 1).1.nused_frames ≠ wrap_state.nused_frames + 1 := by
  refine ⟨⟨?_, by decide, by decide, by decide⟩, by decide, by decide, by decide⟩
  intro i
  show (if i = 0 then 1 else 0) < 2 ^ 32
  split <;> norm_num

/-- C1 (amended): for every allocator state with a 32-bit `nframes` and every
`1 ≤ n ≤ 32`, if `frame_alloc(n)` returns a non-zero frame id `r`, then every bit
`r .. r+n-1` was clear before the call and is set after it, every other bit is unchanged,
and `nused_frames` has grown by `n` modulo `2^32`, hence by exactly `n` whenever
`nused_frames + n` fits in 32 bits. -/
theorem frame_alloc_marks_fresh_run (s : FrameState) (n : Nat) (hnf : s.nframes < 2 ^ 32)
    (h1 : 1 ≤ n) (h32 : n ≤ 32) (hr : (frame_alloc s n).2 ≠ 0) :
    (∀ b, (frame_alloc s n).2 ≤ b → b < (frame_alloc s n).2 + n →
      frame_bit s b = false ∧ frame_bit (frame_alloc s n).1 b = true) ∧
    (∀ b, ¬ ((frame_alloc s n).2 ≤ b ∧ b < (frame_alloc s n).2 + n) →
      frame_bit (frame_alloc s n).1 b = frame_bit s b) ∧
    (frame_alloc s n).1.nused_frames = (s.nused_frames + n) % 2 ^ 32 ∧
    (s.nused_frames + n < 2 ^ 32 →
      (frame_alloc s n).1.nused_frames = s.nused_frames + n) := by
  obtain ⟨_, hc⟩ := frame_alloc_cases s n h1 h32
  rcases hc with ⟨_, _, c, _⟩ | ⟨i1, j1, hi1, _, _, hj, hz, _, _, hbs, hu, hres⟩
  · exact absurd c hr
  · have hI : i1 < s.nframes / 32 := hi1
    have hlt : i1 * 32 + j1 < 2 ^ 32 := by omega
    rw [Nat.mod_eq_of_lt hlt] at hres
    rw [hres]
    refine ⟨?_, ?_, hu, ?_⟩
    · intro b hb1 hb2
      refine ⟨frame_bit_before_hit s n i1 j1 h32 hj hz b hb1 hb2, ?_⟩
      rw [frame_bit_after_hit s _ n i1 j1 h32 hj hbs b]
      simp [hb1, hb2]
    · intro b hb
      rw [frame_bit_after_hit s _ n i1 j1 h32 hj hbs b]
      simp [hb]
    · intro hno
      rw [hu, Nat.mod_eq_of_lt hno]

/-- C1 (amended), at a concrete state: frames 1, 2 and 3 are used and `frame_alloc(2)`
returns frame 4. -/
theorem frame_alloc_marks_fresh_run_witness :
    (frame_alloc run_state 2).2 = 4 ∧
      (frame_alloc run_state 2).1.nused_frames = (run_state.nused_frames + 2) % 2 ^ 32 :=
  ⟨by decide,
    (frame_alloc_marks_fresh_run run_state 2 (by decide) (by decide) (by decide)
      (by decide)).2.2.1⟩

/-- C2 (the code at a failing input): frames 0, 1, 2, 3 and 35 are used and
`nused_frames = 5`. `frame_free(1, 2)` should clear bits 1 and 2. With the macros
expanded, the code computes `idx = base + n/32 = 1` and `ofs = base + n%32 = 3` in both
iterations: it tests and clears bit 3 of word 1, which is frame 35. Bits 1 and 2 stay
set, frame 35 (outside the run) is freed and `nused_frames` drops by 1 instead of 2. -/
theorem frame_free_clears_wrong_bit :
    frame_bit far_state 1 = true ∧ frame_bit far_state 2 = true ∧
      frame_bit far_state 35 = true ∧ far_state.nused_frames = 5 ∧
      frame_free_word 1 2 = 1 ∧ frame_free_bit 1 2 = 35 ∧
      frame_bit (frame_free far_state 1 2) 1 = true ∧
      frame_bit (frame_free far_state 1 2) 2 = true ∧
      frame_bit (frame_free far_state 1 2) 35 = false ∧
      (frame_free far_state 1 2).frame_bitset 0 = 0xF ∧
      (frame_free far_state 1 2).frame_bitset 1 = 0 ∧
      (frame_free far_state 1 2).nused_frames = 4 := by
  decide

/-- C3 (the code at a failing input): with only frame 0 used, `frame_alloc(2)` returns
frame 1 and `nused_frames` goes from 1 to 3. `frame_free(1, 2)` then looks at bit 3 of
word 1 (frame 35) only, which is clear: word 0 of the bitmap stays `0b111`, word 1 stays 0
and `nused_frames` stays 3. -/
theorem frame_free_after_alloc_not_restored :
    boot_state.nused_frames = 1 ∧ boot_state.frame_bitset 0 = 1 ∧
      (frame_alloc boot_state 2).2 = 1 ∧
      (frame_alloc boot_state 2).1.nused_frames = 3 ∧
      frame_free_word 1 2 = 1 ∧ frame_free_bit 1 2 = 35 ∧
      (frame_free (frame_alloc boot_state 2).1 1 2).nused_frames = 3 ∧
      (frame_free (frame_alloc boot_state 2).1 1 2).frame_bitset 0 = 7 ∧
      (frame_free (frame_alloc boot_state 2).1 1 2).frame_bitset 1 = 0 := by
  decide

/-- C4: invariant F1, `popcount(bitmap) == nused_frames`, holds right after
`frame_init_allocator` when the kernel pages fit in the bitmap, and is preserved by every
`frame_alloc(n)` with `1 ≤ n ≤ 32` and by every `frame_free(base, n)` whose accessed bit
lies inside the bitmap, that is, whose word index `base + n/32` (in 32 bits) is below the
number of words of the bitmap (a free of free frames included), for an allocator over at
most `2^20` frames, the number of 4 KiB frames of a 32-bit physical address space. -/
theorem F1_invariant :
    (∀ (mem : Nat → Nat) (total_ram kernel_data_end : Nat),
      frame_init_kernel_pages total_ram kernel_data_end ≤
        32 * bitset_words (frame_init_allocator mem total_ram kernel_data_end).1 →
      F1 (frame_init_allocator mem total_ram kernel_data_end).1) ∧
    (∀ (s : FrameState) (n : Nat), s.nframes ≤ 2 ^ 20 → 1 ≤ n → n ≤ 32 → F1 s →
      F1 (frame_alloc s n).1) ∧
    (∀ (s : FrameState) (base n : Nat), s.nframes ≤ 2 ^ 20 →
      (base + n / 32) % 2 ^ 32 < bitset_words s → F1 s → F1 (frame_free s base n)) :=
  ⟨frame_init_allocator_F1, frame_alloc_preserves_F1,
    fun s base n hnf hin hF =>
      frame_free_preserves_F1 s base n hnf ((in_bitmap_frame_free_bit s base n).2 hin) hF⟩

/-- C4 at concrete inputs: the bootstrap of the spec's scenario 1 (16 MiB of RAM, kernel
image ending at `0xC0100000`), an allocation of 2 frames, the call `frame_free(1, 2)`
that clears the set bit of frame 35 (`nused_frames` goes from 5 to 4), and the same call
on a state in which that frame is free. -/
theorem F1_invariant_witness :
    F1 (frame_init_allocator (fun _ => 0) 0x1000000 0xC0100000).1 ∧
      F1 (frame_alloc boot_state 2).1 ∧
      (F1 (frame_free far_state 1 2) ∧ (frame_free far_state 1 2).nused_frames = 4) ∧
      F1 (frame_free boot_state 1 2) :=
  ⟨F1_invariant.1 (fun _ => 0) 0x1000000 0xC0100000 (by decide),
    F1_invariant.2.1 boot_state 2 (by decide) (by decide) (by decide) (by decide),
    ⟨F1_invariant.2.2 far_state 1 2 (by decide) (by decide) (by decide), by decide⟩,
    F1_invariant.2.2 boot_state 1 2 (by decide) (by decide) (by decide)⟩

theorem fits_iff (s : FrameState) (n i j : Nat) (h32 : n ≤ 32) (hj : j + n ≤ 32) :
    fits s n i j ↔ s.frame_bitset i &&& to_test n j = 0 := by
  rw [land_to_test_eq_zero_iff _ n j h32 hj]
  unfold fits frame_bit INDEX_FROM_BIT OFFSET_FROM_BIT
  constructor
  · intro h k hk
    have := h k hk
    rwa [show (32 * i + j + k) / (8 * 4) = i by omega,
      show (32 * i + j + k) % (8 * 4) = j + k by omega] at this
  · intro h k hk
    rw [show (32 * i + j + k) / (8 * 4) = i by omega,
      show (32 * i + j + k) % (8 * 4) = j + k by omega]
    exact h k hk

/-- C5: `frame_alloc` is first-fit. For every allocator state with a 32-bit `nframes` and
every `1 ≤ n ≤ 32`: if word `i` in `[begin_search_at, nframes/32)` has `n` consecutive clear
bits from offset `j ≤ 32 - n`, and `(i, j)` is the first such place in ascending word
order and, within the word, ascending offset, then `frame_alloc(n)` returns `32*i + j`;
if no scanned word has such a run it returns 0. In particular, with frame 0 marked used,
`frame_alloc(32)` returns a non-zero id if and only if some word with index in
`[begin_search_at, nframes/32)` is entirely clear. The cursor invariant is not needed. -/
theorem frame_alloc_first_fit (s : FrameState) (n : Nat) (hnf : s.nframes < 2 ^ 32)
    (h1 : 1 ≤ n) (h32 : n ≤ 32) :
    (∀ i j, s.begin_search_at ≤ i → i < INDEX_FROM_BIT s.nframes → j + n ≤ 32 →
      fits s n i j →
      (∀ i' j', s.begin_search_at ≤ i' → i' < i → j' + n ≤ 32 → ¬ fits s n i' j') →
      (∀ j', j' < j → ¬ fits s n i j') →
      (frame_alloc s n).2 = 32 * i + j) ∧
    ((∀ i j, s.begin_search_at ≤ i → i < INDEX_FROM_BIT s.nframes → j + n ≤ 32 →
        ¬ fits s n i j) →
      (frame_alloc s n).2 = 0) ∧
    (frame_bit s 0 = true →
      ((frame_alloc s 32).2 ≠ 0 ↔
        ∃ i, s.begin_search_at ≤ i ∧ i < INDEX_FROM_BIT s.nframes ∧ fits s 32 i 0)) := by
  refine ⟨?_, ?_, ?_⟩
  · intro i j hi1 hi2 hj hfit hmin1 hmin2
    obtain ⟨_, hc⟩ := frame_alloc_cases s n h1 h32
    rcases hc with ⟨_, _, _, d⟩ | ⟨i1, j1, hi1', a, b, hj1, hz, e, f, _, _, hres⟩
    · exact absurd ((fits_iff s n i j h32 hj).1 hfit) (d i hi1 (by omega) j hj)
    · have hI : i1 < s.nframes / 32 := hi1'
      have hfit1 : fits s n i1 j1 := (fits_iff s n i1 j1 h32 hj1).2 hz
      have hie : i1 = i := by
        rcases Nat.lt_trichotomy i1 i with h | h | h
        · exact absurd hfit1 (hmin1 i1 j1 a h hj1)
        · exact h
        · exact absurd ((fits_iff s n i j h32 hj).1 hfit) (e i hi1 h j hj)
      subst hie
      have hje : j1 = j := by
        rcases Nat.lt_trichotomy j1 j with h | h | h
        · exact absurd hfit1 (hmin2 j1 h)
        · exact h
        · exact absurd ((fits_iff s n i1 j h32 hj).1 hfit) (f j h)
      subst hje
      rw [hres, Nat.mod_eq_of_lt (by omega)]
      omega
  · intro hnone
    obtain ⟨_, hc⟩ := frame_alloc_cases s n h1 h32
    rcases hc with ⟨_, _, c, _⟩ | ⟨i1, j1, hi1', a, _, hj1, hz, _, _, _, _, _⟩
    · exact c
    · exact absurd ((fits_iff s n i1 j1 h32 hj1).2 hz) (hnone i1 j1 a hi1' hj1)
  · intro h0
    obtain ⟨_, hc⟩ := frame_alloc_cases s 32 (by omega) (le_refl _)
    constructor
    · intro hne
      rcases hc with ⟨_, _, c, _⟩ | ⟨i1, j1, hi1', a, _, hj1, hz, _, _, _, _, _⟩
      · exact absurd c hne
      · have hj0 : j1 = 0 := by omega
        subst hj0
        exact ⟨i1, a, hi1', (fits_iff s 32 i1 0 (le_refl _) hj1).2 hz⟩
    · rintro ⟨i, hi1, hi2, hfit⟩
      rcases hc with ⟨_, _, _, d⟩ | ⟨i1, j1, hi1', a, _, hj1, hz, _, _, _, _, hres⟩
      · exact absurd ((fits_iff s 32 i 0 (le_refl _) (le_refl _)).1 hfit)
          (d i hi1 (by omega) 0 (le_refl _))
      · have hI : i1 < s.nframes / 32 := hi1'
        have hj0 : j1 = 0 := by omega
        subst hj0
        have hfit1 : fits s 32 i1 0 := (fits_iff s 32 i1 0 (le_refl _) hj1).2 hz
        have hi0 : i1 ≠ 0 := by
          intro e
          subst e
          have := hfit1 0 (by omega)
          rw [show 32 * 0 + 0 + 0 = 0 by rfl, h0] at this
          exact Bool.noConfusion this
        rw [hres, Nat.mod_eq_of_lt (by omega)]
        omega

/-- C5 at a concrete state: frames 1, 2 and 3 are used, so the first run of 2 free frames
in word 0 starts at offset 4 (offset 0 is followed by the used frame 1). -/
theorem frame_alloc_first_fit_witness : (frame_alloc run_state 2).2 = 32 * 0 + 4 :=
  (frame_alloc_first_fit run_state 2 (by decide) (by decide) (by decide)).1 0 4
    (by decide) (by decide) (by decide) (by decide)
    (fun i' j' h1 h2 => absurd h2 (Nat.not_lt_zero _))
    (by decide)

/-- C6: for every allocator state and every `n > 32`, `frame_alloc(n)` returns 0 and leaves
the whole state (bitmap, `nused_frames`, cursor) as it was. -/
theorem frame_alloc_too_many (s : FrameState) (n : Nat) (hn : n > 32) :
    (frame_alloc s n).2 = 0 ∧ (frame_alloc s n).1 = s := by
  unfold frame_alloc
  rw [if_pos hn]
  exact ⟨rfl, rfl⟩

/-- C6 at `n = 33`. -/
theorem frame_alloc_too_many_witness :
    (frame_alloc run_state 33).2 = 0 ∧ (frame_alloc run_state 33).1 = run_state :=
  frame_alloc_too_many run_state 33 (by decide)

/-! ## Lemmas about the page-table engine -/

theorem not_and_present_ne_zero (x : Nat) : not_and_present x ≠ 0 ↔ x = 0 := by
  unfold not_and_present PTE_PRESENT
  by_cases h : x = 0
  · simp [h]
  · simp [h]

theorem present_iff_testBit (x : Nat) : x &&& PTE_PRESENT ≠ 0 ↔ x.testBit 0 = true := by
  unfold PTE_PRESENT
  exact land_one_shiftLeft_ne_zero x 0

theorem PT_OF_ADDR_mirror (pt page : Nat) (hpt : pt < 1024) (hpage : page < 1024) :
    PT_OF_ADDR (current_pt_addr pt page) = 1023 := by
  unfold PT_OF_ADDR current_pt_addr PD_MIRROR_ADDR PAGE_SIZE PAGE_SHIFT PT_SHIFT
  rw [Nat.shiftRight_eq_div_pow]
  norm_num
  omega

theorem PAGE_OF_ADDR_mirror (pt page : Nat) (hpt : pt < 1024) (hpage : page < 1024) :
    PAGE_OF_ADDR (current_pt_addr pt page) = pt := by
  unfold PAGE_OF_ADDR current_pt_addr PD_MIRROR_ADDR PAGE_SIZE PAGE_SHIFT N_PAGES_IN_PT
  rw [Nat.shiftRight_eq_div_pow]
  norm_num
  omega

theorem word_of_mirror (pt page : Nat) (hpage : page < 1024) :
    current_pt_addr pt page % PAGE_SIZE / 4 = page := by
  unfold current_pt_addr PD_MIRROR_ADDR PAGE_SIZE
  omega

theorem current_pd_addr_eq (i : Nat) : current_pd_addr i = current_pt_addr 1023 i := rfl

theorem PT_OF_ADDR_lt (vaddr : Nat) (h : vaddr < PD_MIRROR_ADDR) : PT_OF_ADDR vaddr < 1023 := by
  unfold PT_OF_ADDR PAGE_SHIFT PT_SHIFT
  unfold PD_MIRROR_ADDR at h
  rw [Nat.shiftRight_eq_div_pow]
  norm_num
  omega

theorem PAGE_OF_ADDR_lt (vaddr : Nat) : PAGE_OF_ADDR vaddr < 1024 := by
  unfold PAGE_OF_ADDR N_PAGES_IN_PT
  exact Nat.mod_lt _ (by norm_num)

theorem testBit_flags (c k : Nat) (h : c < 2 ^ 12) : c.testBit (12 + k) = false := by
  apply Nat.testBit_lt_two_pow
  calc c < 2 ^ 12 := h
    _ ≤ 2 ^ (12 + k) := Nat.pow_le_pow_right (by norm_num) (by omega)

/-- The frame field of an entry made of a frame address and flags below bit 12. -/
theorem frame_field (a c : Nat) (hc : c < 2 ^ 12) : ((a <<< 12) ||| c) >>> 12 = a := by
  apply Nat.eq_of_testBit_eq
  intro i
  rw [Nat.testBit_shiftRight, Nat.testBit_lor, Nat.testBit_shiftLeft, testBit_flags c i hc]
  simp

/-- The entry of `pd_map_page` is a frame address or-ed with flags below bit 12. -/
theorem pd_map_page_entry_eq (vaddr frame_id : Nat) (rw : Bool) (hf : frame_id < 2 ^ 20) :
    pd_map_page_entry vaddr frame_id rw =
      (frame_id <<< 12) |||
        (PTE_PRESENT ||| (if vaddr < K_HIGHHALF_ADDR then PTE_USER else PTE_GLOBAL) |||
          (if rw then PTE_RW else 0)) := by
  unfold pd_map_page_entry PTE_FRAME_SHIFT
  have hlt : frame_id <<< 12 < 2 ^ 32 := by
    rw [Nat.shiftLeft_eq]
    omega
  rw [Nat.mod_eq_of_lt hlt, Nat.lor_assoc, Nat.lor_assoc, ← Nat.lor_assoc PTE_PRESENT]

theorem pd_map_page_flags_lt (vaddr : Nat) (rw : Bool) :
    PTE_PRESENT ||| (if vaddr < K_HIGHHALF_ADDR then PTE_USER else PTE_GLOBAL) |||
      (if rw then PTE_RW else 0) < 2 ^ 12 := by
  unfold PTE_PRESENT PTE_USER PTE_GLOBAL PTE_RW
  cases rw <;> split <;> decide

theorem pd_map_page_entry_frame (vaddr frame_id : Nat) (rw : Bool) (hf : frame_id < 2 ^ 20) :
    pd_map_page_entry vaddr frame_id rw >>> PTE_FRAME_SHIFT = frame_id := by
  rw [pd_map_page_entry_eq vaddr frame_id rw hf]
  exact frame_field _ _ (pd_map_page_flags_lt vaddr rw)

theorem pd_map_page_entry_present (vaddr frame_id : Nat) (rw : Bool) :
    (pd_map_page_entry vaddr frame_id rw).testBit 0 = true := by
  unfold pd_map_page_entry PTE_PRESENT
  rw [Nat.testBit_lor, Nat.testBit_lor, Nat.testBit_lor]
  simp

theorem ne_zero_of_testBit (x k : Nat) (h : x.testBit k = true) : x ≠ 0 := by
  intro e
  rw [e, Nat.zero_testBit] at h
  exact Bool.noConfusion h

theorem mem_write_apply (mem : Nat → Nat → Nat) (f i v f' i' : Nat) :
    mem_write mem f i v f' i' = if f' = f ∧ i' = i then v else mem f' i' := by
  unfold mem_write
  by_cases hf : f' = f
  · subst hf
    rw [Function.update_same, Function.update_apply]
    by_cases hi : i' = i
    · rw [if_pos hi, if_pos ⟨rfl, hi⟩]
    · rw [if_neg hi, if_neg (fun h => hi h.2)]
  · rw [Function.update_noteq hf, if_neg (fun h => hf h.1)]

/-- Under P1 the mirror entry is present and names the directory's own frame. -/
theorem P1_mirror (s : PagingState) (hP : P1 s) :
    s.mem s.cr3 1023 &&& PTE_PRESENT ≠ 0 ∧ s.mem s.cr3 1023 >>> PTE_FRAME_SHIFT = s.cr3 := by
  unfold P1 at hP
  have h1023 : N_PAGES_IN_PT - 1 = 1023 := rfl
  rw [h1023] at hP
  have hshift : s.cr3 * PAGE_SIZE = s.cr3 <<< 12 := by
    rw [Nat.shiftLeft_eq]; rfl
  rw [hP, hshift]
  constructor
  · rw [present_iff_testBit, Nat.testBit_lor, Nat.testBit_lor]
    simp [PTE_PRESENT]
  · rw [Nat.lor_assoc]
    exact frame_field _ _ (by decide)

/-- Under P1 the mirror window shows the page tables of the active directory: the walk
for `current_pt[pt].page[page]` ends in the frame named by directory entry `pt`. -/
theorem mmu_walk_mirror (s : PagingState) (hP : P1 s) (pt page : Nat) (hpt : pt < 1024)
    (hpage : page < 1024) :
    mmu_walk s (current_pt_addr pt page) =
      if s.mem s.cr3 pt &&& PTE_PRESENT = 0 then none
      else some (s.mem s.cr3 pt >>> PTE_FRAME_SHIFT) := by
  obtain ⟨h1, h2⟩ := P1_mirror s hP
  unfold mmu_walk
  simp only []
  rw [PT_OF_ADDR_mirror pt page hpt hpage, PAGE_OF_ADDR_mirror pt page hpt hpage, if_neg h1, h2]

theorem load32_current_pd (s : PagingState) (hP : P1 s) (i : Nat) (hi : i < 1024) :
    load32 s (current_pd_addr i) = .ok (s.mem s.cr3 i) := by
  obtain ⟨h1, h2⟩ := P1_mirror s hP
  unfold load32
  rw [current_pd_addr_eq, mmu_walk_mirror s hP 1023 i (by omega) hi, if_neg h1, h2,
    word_of_mirror 1023 i hi]

theorem store32_current_pd (s : PagingState) (hP : P1 s) (i v : Nat) (hi : i < 1024) :
    store32 s (current_pd_addr i) v = .ok { s with mem := mem_write s.mem s.cr3 i v } := by
  obtain ⟨h1, h2⟩ := P1_mirror s hP
  unfold store32
  rw [current_pd_addr_eq, mmu_walk_mirror s hP 1023 i (by omega) hi, if_neg h1, h2,
    word_of_mirror 1023 i hi]

theorem load32_current_pt (s : PagingState) (hP : P1 s) (pt page : Nat) (hpt : pt < 1024)
    (hpage : page < 1024) (hpr : s.mem s.cr3 pt &&& PTE_PRESENT ≠ 0) :
    load32 s (current_pt_addr pt page) =
      .ok (s.mem (s.mem s.cr3 pt >>> PTE_FRAME_SHIFT) page) := by
  unfold load32
  rw [mmu_walk_mirror s hP pt page hpt hpage, if_neg hpr, word_of_mirror pt page hpage]

/-- A store through the mirror window either faults, when directory entry `pt` is not
present, or lands in the frame that entry names. -/
theorem store32_current_pt (s s' : PagingState) (hP : P1 s) (pt page v : Nat)
    (hpt : pt < 1024) (hpage : page < 1024)
    (h : store32 s (current_pt_addr pt page) v = .ok s') :
    s.mem s.cr3 pt &&& PTE_PRESENT ≠ 0 ∧
      s' = { s with mem := mem_write s.mem (s.mem s.cr3 pt >>> PTE_FRAME_SHIFT) page v } := by
  unfold store32 at h
  rw [mmu_walk_mirror s hP pt page hpt hpage, word_of_mirror pt page hpage] at h
  by_cases hpr : s.mem s.cr3 pt &&& PTE_PRESENT = 0
  · rw [if_pos hpr] at h
    exact absurd h (by simp)
  · rw [if_neg hpr] at h
    refine ⟨hpr, ?_⟩
    simp only [Except.ok.injEq] at h
    exact h.symm

/-- A store that does not hit entry 1023 of the active directory keeps P1. -/
theorem P1_mem_write (s : PagingState) (hP : P1 s) (f i v : Nat)
    (h : f ≠ s.cr3 ∨ i ≠ 1023) : P1 { s with mem := mem_write s.mem f i v } := by
  unfold P1 at *
  show mem_write s.mem f i v s.cr3 (N_PAGES_IN_PT - 1) = _
  rw [mem_write_apply, if_neg, hP]
  rintro ⟨h1, h2⟩
  rcases h with h | h
  · exact h h1.symm
  · exact h h2.symm

theorem new_table_entry_ne_zero (x : Nat) : x ||| PTE_PRESENT ||| PTE_RW ≠ 0 := by
  apply ne_zero_of_testBit _ 0
  rw [Nat.testBit_lor, Nat.testBit_lor]
  simp [PTE_PRESENT]

/-- When lines 185 to 195 of `pd_map_page` go on to the table entry, the active directory
still carries its mirror and the directory entry that `pd_get_frame` tests is not zero. -/
theorem pd_map_page_table_ok (s s1 : PagingState) (v : Nat) (hP : P1 s)
    (hpt : PT_OF_ADDR v < 1023) (h : pd_map_page_table s v = .ok (s1, 0)) :
    P1 s1 ∧ s1.cr3 = s.cr3 ∧ s1.kernel_pd = s.kernel_pd ∧
      ∃ pde, load_pd s1 v (PT_OF_ADDR v) = .ok pde ∧ pde ≠ 0 := by
  unfold pd_map_page_table at h
  simp only [] at h
  cases hl : load_pd s v (PT_OF_ADDR v) with
  | error e => rw [hl] at h; simp at h
  | ok pde =>
    rw [hl] at h
    simp only [] at h
    by_cases hz : not_and_present pde ≠ 0
    · rw [if_pos hz] at h
      by_cases hnew : (frame_alloc s.frames 1).2 = 0
      · rw [if_pos hnew] at h
        simp at h
      · rw [if_neg hnew] at h
        generalize hval : ((frame_alloc s.frames 1).2 <<< PTE_FRAME_SHIFT) % 2 ^ 32
          ||| PTE_PRESENT ||| PTE_RW = val at h
        have hvne : val ≠ 0 := by rw [← hval]; exact new_table_entry_ne_zero _
        have hP0 : P1 { s with frames := (frame_alloc s.frames 1).1 } := hP
        generalize hs0 : ({ s with frames := (frame_alloc s.frames 1).1 } : PagingState) = s0
          at h hP0
        have hc0 : s0.cr3 = s.cr3 := by rw [← hs0]
        have hk0 : s0.kernel_pd = s.kernel_pd := by rw [← hs0]
        by_cases hk : v ≥ K_HIGHHALF_ADDR
        · unfold store_pd at h
          rw [if_pos hk] at h
          simp only [] at h
          have hP2 : P1 { s0 with mem := mem_write s0.mem s0.kernel_pd (PT_OF_ADDR v) val } :=
            P1_mem_write s0 hP0 _ _ _ (Or.inr (by omega))
          rw [store32_current_pd _ hP2 _ _ (by omega)] at h
          simp only [Except.ok.injEq, Prod.mk.injEq, and_true] at h
          subst h
          refine ⟨P1_mem_write _ hP2 _ _ _ (Or.inr (by omega)), hc0, hk0, val, ?_, hvne⟩
          unfold load_pd
          rw [if_pos hk]
          simp [mem_write_apply]
        · unfold store_pd at h
          rw [if_neg hk, store32_current_pd _ hP0 _ _ (by omega)] at h
          simp only [] at h
          have hP2 : P1 { s0 with mem := mem_write s0.mem s0.cr3 (PT_OF_ADDR v) val } :=
            P1_mem_write s0 hP0 _ _ _ (Or.inr (by omega))
          rw [store32_current_pd _ hP2 _ _ (by omega)] at h
          simp only [Except.ok.injEq, Prod.mk.injEq, and_true] at h
          subst h
          have hP3 := P1_mem_write _ hP2 s0.cr3 (PT_OF_ADDR v) val (Or.inr (by omega))
          refine ⟨hP3, hc0, hk0, val, ?_, hvne⟩
          unfold load_pd
          rw [if_neg hk, load32_current_pd _ hP3 _ (by omega)]
          simp [mem_write_apply]
    · rw [if_neg hz] at h
      simp only [Except.ok.injEq, Prod.mk.injEq, and_true] at h
      subst h
      refine ⟨hP, rfl, rfl, pde, hl, ?_⟩
      intro e
      exact hz ((not_and_present_ne_zero pde).2 e)

/-- A successful `pd_map_page` is a successful run of lines 185 to 195 followed by the
store of the table entry through the mirror window. -/
theorem pd_map_page_ok (s s' : PagingState) (v f : Nat) (rw : Bool)
    (h : pd_map_page s v f rw = .ok (s', 0)) :
    v < PD_MIRROR_ADDR ∧ ∃ s1, pd_map_page_table s v = .ok (s1, 0) ∧
      store32 s1 (current_pt_addr (PT_OF_ADDR v) (PAGE_OF_ADDR v))
        (pd_map_page_entry v f rw) = .ok s' := by
  unfold pd_map_page at h
  simp only [] at h
  by_cases hv : v < PD_MIRROR_ADDR
  · rw [if_neg (not_not.2 hv)] at h
    refine ⟨hv, ?_⟩
    cases ht : pd_map_page_table s v with
    | error e => rw [ht] at h; simp at h
    | ok p =>
      obtain ⟨s1, st⟩ := p
      rw [ht] at h
      simp only [] at h
      by_cases hst : st ≠ 0
      · rw [if_pos hst] at h
        simp only [Except.ok.injEq, Prod.mk.injEq] at h
        exact absurd h.2 hst
      · rw [if_neg hst] at h
        have hst0 : st = 0 := not_not.1 hst
        subst hst0
        refine ⟨s1, rfl, ?_⟩
        cases hs : store32 s1 (current_pt_addr (PT_OF_ADDR v) (PAGE_OF_ADDR v))
            (pd_map_page_entry v f rw) with
        | error e => rw [hs] at h; simp at h
        | ok s2 =>
          rw [hs] at h
          simp only [Except.ok.injEq, Prod.mk.injEq, and_true] at h
          rw [h]
  · rw [if_pos hv] at h
    simp at h

/-- C7 (as stated, refuted): the active directory carries its mirror, but its entry 5
names the directory's own frame. `pd_map_page(0x1405000, 9, true)` returns 0 after
storing the table entry into entry 5 of the directory itself, and `pd_get_frame` then
walks to frame 9, finds a zero entry and returns 0, not 9. -/
theorem pd_map_page_alias_breaks_lookup :
    P1 alias_state ∧ 0x1405000 < PD_MIRROR_ADDR ∧ 9 < 2 ^ 20 ∧
      pd_map_then_get alias_state 0x1405000 9 true = .ok (0, 0) :=
  ⟨by decide, by decide, by decide, rfl⟩

/-- C7 (amended): map/lookup round trip. For every paging state whose active page
directory carries its self-mirror (P1), every `v` below `PD_MIRROR_ADDR`, every frame id
`f < 2^20` and every `rw`: if `pd_map_page(v, f, rw)` returns 0 and the page table it
uses for `v` (found in the directory, or freshly installed by the call) is not the
directory's own frame, then `pd_get_frame(v)` called right afterwards returns `f`. -/
theorem pd_map_page_then_get_frame (s s' : PagingState) (v f : Nat) (rw : Bool)
    (hP : P1 s) (hv : v < PD_MIRROR_ADDR) (hf : f < 2 ^ 20)
    (hsep : ∀ s1, pd_map_page_table s v = .ok (s1, 0) →
      s1.mem s1.cr3 (PT_OF_ADDR v) >>> PTE_FRAME_SHIFT ≠ s1.cr3)
    (h : pd_map_page s v f rw = .ok (s', 0)) :
    pd_get_frame s' v = .ok f := by
  have hpt := PT_OF_ADDR_lt v hv
  have hpage := PAGE_OF_ADDR_lt v
  obtain ⟨_, s1, ht, hs⟩ := pd_map_page_ok s s' v f rw h
  obtain ⟨hP1, _, _, pde, hld, hpde⟩ := pd_map_page_table_ok s s1 v hP hpt ht
  obtain ⟨hpr, hs'⟩ := store32_current_pt s1 s' hP1 _ _ _ (by omega) hpage hs
  have hF := hsep s1 ht
  have hE : pd_map_page_entry v f rw ≠ 0 :=
    ne_zero_of_testBit _ 0 (pd_map_page_entry_present v f rw)
  generalize hEdef : pd_map_page_entry v f rw = E at *
  generalize hFdef : s1.mem s1.cr3 (PT_OF_ADDR v) >>> PTE_FRAME_SHIFT = F at *
  have hP' : P1 s' := by
    rw [hs']
    exact P1_mem_write s1 hP1 F _ E (Or.inl hF)
  have hcr3 : s'.cr3 = s1.cr3 := by rw [hs']
  have hkpd : s'.kernel_pd = s1.kernel_pd := by rw [hs']
  have hmem : ∀ f' i', s'.mem f' i' =
      if f' = F ∧ i' = PAGE_OF_ADDR v then E else s1.mem f' i' := by
    intro f' i'
    rw [hs']
    exact mem_write_apply _ _ _ _ _ _
  have hdir : s'.mem s'.cr3 (PT_OF_ADDR v) = s1.mem s1.cr3 (PT_OF_ADDR v) := by
    rw [hmem, hcr3, if_neg (fun hh => hF hh.1.symm)]
  have hload : ∃ x, load_pd s' v (PT_OF_ADDR v) = .ok x ∧ x ≠ 0 := by
    unfold load_pd at hld ⊢
    by_cases hk : v ≥ K_HIGHHALF_ADDR
    · rw [if_pos hk] at hld ⊢
      simp only [Except.ok.injEq] at hld
      refine ⟨_, rfl, ?_⟩
      rw [hmem, hkpd]
      split
      · exact hE
      · rw [hld]; exact hpde
    · rw [if_neg hk] at hld ⊢
      rw [load32_current_pd s1 hP1 _ (by omega)] at hld
      simp only [Except.ok.injEq] at hld
      rw [load32_current_pd s' hP' _ (by omega)]
      refine ⟨_, rfl, ?_⟩
      rw [hdir, hld]
      exact hpde
  obtain ⟨x, hx, hx0⟩ := hload
  have hpr' : s'.mem s'.cr3 (PT_OF_ADDR v) &&& PTE_PRESENT ≠ 0 := by rw [hdir]; exact hpr
  have hpte : load32 s' (current_pt_addr (PT_OF_ADDR v) (PAGE_OF_ADDR v)) = .ok E := by
    rw [load32_current_pt s' hP' _ _ (by omega) hpage hpr', hdir, hFdef, hmem,
      if_pos ⟨rfl, rfl⟩]
  unfold pd_get_frame
  simp only []
  rw [hx]
  simp only []
  rw [if_neg (fun hh => hx0 ((not_and_present_ne_zero x).1 hh)), hpte]
  simp only []
  rw [if_neg (fun hh => hE ((not_and_present_ne_zero E).1 hh)), ← hEdef,
    pd_map_page_entry_frame v f rw hf]

/-- C7 (amended) at a concrete state: the table entry of `0x401000` lives in frame 2, and
after `pd_map_page(0x401000, 9, true)` the lookup returns 9. -/
theorem pd_map_page_then_get_frame_witness :
    pd_get_frame { stale_state with mem := mem_write stale_state.mem 2 1 0x9007 } 0x401000 =
      .ok 9 :=
  pd_map_page_then_get_frame stale_state _ 0x401000 9 true (by decide) (by decide)
    (by decide)
    (fun s1 h => by
      have e : pd_map_page_table stale_state 0x401000 = .ok (stale_state, 0) := rfl
      rw [e] at h
      simp only [Except.ok.injEq, Prod.mk.injEq, and_true] at h
      subst h
      decide)
    rfl

/-- C8 (the code at a failing input): the table entry of `0x401000` is `0x5000`, without
the present bit, so the page is absent; `pd_unmap_page(0x401000)` nevertheless passes both
tests, because the entry is not zero, and overwrites the entry with 0. -/
theorem pd_unmap_page_changes_absent_entry :
    load32 stale_state (current_pt_addr 1 1) = .ok 0x5000 ∧ 0x5000 &&& PTE_PRESENT = 0 ∧
      stale_state.mem 2 1 = 0x5000 ∧
      (pd_unmap_page stale_state 0x401000).toOption.map (fun t => t.mem 2 1) = some 0 :=
  ⟨rfl, by decide, by decide, rfl⟩

/-- C9 (the code at a failing input): the table entry of `0x401000` is `0x5000`, without
the present bit; `pd_get_frame(0x401000)` returns its frame field 5 instead of 0. -/
theorem pd_get_frame_ignores_present_bit :
    load32 stale_state (current_pt_addr 1 1) = .ok 0x5000 ∧ 0x5000 &&& PTE_PRESENT = 0 ∧
      pd_get_frame stale_state 0x401000 = .ok 5 :=
  ⟨rfl, by decide, rfl⟩

theorem testBit_entry_low (a c k : Nat) (hk : k < 12) :
    ((a <<< 12) ||| c).testBit k = c.testBit k := by
  rw [Nat.testBit_lor, Nat.testBit_shiftLeft]
  have : ¬ k ≥ 12 := by omega
  simp [this]

/-- C10: for every frame id `f < 2^20` and every `rw`, a successful
`pd_map_page(v, f, rw)` (which implies `v < PD_MIRROR_ADDR`) stores, into word
`PAGE_OF_ADDR(v)` of the page-table frame that the mirror window selects for `v`, exactly
`(f << 12) | present | (user if v < K_HIGHHALF_ADDR else global) | (R/W if rw)`, and
changes no other word of memory in that store. In this entry bit 0 is set, bit 1 is `rw`,
bit 2 is set exactly when `v < K_HIGHHALF_ADDR` and bit 8 exactly when it is not (so never
both), bits 3..7 and 9..11 are zero and bits 12..31 hold `f`. -/
theorem pd_map_page_writes_entry (s s' : PagingState) (v f : Nat) (rw : Bool)
    (hf : f < 2 ^ 20) (h : pd_map_page s v f rw = .ok (s', 0)) :
    v < PD_MIRROR_ADDR ∧
    (∃ s1 F, pd_map_page_table s v = .ok (s1, 0) ∧
      mmu_walk s1 (current_pt_addr (PT_OF_ADDR v) (PAGE_OF_ADDR v)) = some F ∧
      s' = { s1 with mem := mem_write s1.mem F (PAGE_OF_ADDR v) (pd_map_page_entry v f rw) } ∧
      s'.mem F (PAGE_OF_ADDR v) = pd_map_page_entry v f rw) ∧
    pd_map_page_entry v f rw =
      (f <<< 12) ||| PTE_PRESENT ||| (if v < K_HIGHHALF_ADDR then PTE_USER else PTE_GLOBAL)
        ||| (if rw then PTE_RW else 0) ∧
    (pd_map_page_entry v f rw).testBit 0 = true ∧
    (pd_map_page_entry v f rw).testBit 1 = rw ∧
    (pd_map_page_entry v f rw).testBit 2 = decide (v < K_HIGHHALF_ADDR) ∧
    (pd_map_page_entry v f rw).testBit 8 = decide (¬ v < K_HIGHHALF_ADDR) ∧
    (∀ k, (3 ≤ k ∧ k ≤ 7) ∨ (9 ≤ k ∧ k ≤ 11) →
      (pd_map_page_entry v f rw).testBit k = false) ∧
    pd_map_page_entry v f rw >>> 12 = f := by
  obtain ⟨hv, s1, ht, hs⟩ := pd_map_page_ok s s' v f rw h
  have hpage := PAGE_OF_ADDR_lt v
  refine ⟨hv, ?_, ?_, ?_, ?_, ?_, ?_, ?_, pd_map_page_entry_frame v f rw hf⟩
  · unfold store32 at hs
    rw [word_of_mirror _ _ hpage] at hs
    cases hw : mmu_walk s1 (current_pt_addr (PT_OF_ADDR v) (PAGE_OF_ADDR v)) with
    | none => rw [hw] at hs; simp at hs
    | some F =>
      rw [hw] at hs
      simp only [Except.ok.injEq] at hs
      refine ⟨s1, F, ht, hw, hs.symm, ?_⟩
      rw [← hs]
      show mem_write s1.mem F (PAGE_OF_ADDR v) _ F (PAGE_OF_ADDR v) = _
      rw [mem_write_apply, if_pos ⟨rfl, rfl⟩]
  · have hlt : f <<< 12 < 2 ^ 32 := by
      rw [Nat.shiftLeft_eq]
      omega
    unfold pd_map_page_entry PTE_FRAME_SHIFT
    rw [Nat.mod_eq_of_lt hlt]
  · exact pd_map_page_entry_present v f rw
  · rw [pd_map_page_entry_eq v f rw hf, testBit_entry_low _ _ 1 (by omega)]
    unfold PTE_PRESENT PTE_USER PTE_GLOBAL PTE_RW
    cases rw <;> split <;> decide
  · rw [pd_map_page_entry_eq v f rw hf, testBit_entry_low _ _ 2 (by omega)]
    unfold PTE_PRESENT PTE_USER PTE_GLOBAL PTE_RW
    by_cases hk : v < K_HIGHHALF_ADDR
    · rw [if_pos hk, decide_eq_true hk]
      cases rw <;> decide
    · rw [if_neg hk, decide_eq_false hk]
      cases rw <;> decide
  · rw [pd_map_page_entry_eq v f rw hf, testBit_entry_low _ _ 8 (by omega)]
    unfold PTE_PRESENT PTE_USER PTE_GLOBAL PTE_RW
    by_cases hk : v < K_HIGHHALF_ADDR
    · rw [if_pos hk, decide_eq_false (not_not.2 hk)]
      cases rw <;> decide
    · rw [if_neg hk, decide_eq_true hk]
      cases rw <;> decide
  · intro k hk
    have hk12 : k < 12 := by omega
    rw [pd_map_page_entry_eq v f rw hf, testBit_entry_low _ _ k hk12]
    unfold PTE_PRESENT PTE_USER PTE_GLOBAL PTE_RW
    have hcases : k = 3 ∨ k = 4 ∨ k = 5 ∨ k = 6 ∨ k = 7 ∨ k = 9 ∨ k = 10 ∨ k = 11 := by omega
    rcases hcases with e | e | e | e | e | e | e | e <;> subst e <;>
      cases rw <;> split <;> decide

/-- C10 at a concrete state: `pd_map_page(0x401000, 9, true)` stores `0x9007` into word 1
of frame 2. -/
theorem pd_map_page_writes_entry_witness :
    pd_map_page_entry 0x401000 9 true >>> 12 = 9 ∧
      (pd_map_page_entry 0x401000 9 true).testBit 2 = decide (0x401000 < K_HIGHHALF_ADDR) :=
  ⟨(pd_map_page_writes_entry stale_state
      { stale_state with mem := mem_write stale_state.mem 2 1 0x9007 } 0x401000 9 true
      (by decide) rfl).2.2.2.2.2.2.2.2,
    (pd_map_page_writes_entry stale_state
      { stale_state with mem := mem_write stale_state.mem 2 1 0x9007 } 0x401000 9 true
      (by decide) rfl).2.2.2.2.2.1⟩

/-! ## More claims about the frame allocator -/

/-- C17: for every allocator state with a 32-bit `nframes` and every `1 ≤ n ≤ 32`, a
successful `frame_alloc(n)` (one that returns a non-zero id or changes the bitmap) with
result `r` stays inside one bitmap word and inside physical memory:
`(r mod 32) + n ≤ 32`, `r / 32 < nframes / 32` and `r + n ≤ nframes`. -/
theorem frame_alloc_run_in_word (s : FrameState) (n : Nat) (hnf : s.nframes < 2 ^ 32)
    (h1 : 1 ≤ n) (h32 : n ≤ 32)
    (hs : (frame_alloc s n).2 ≠ 0 ∨ (frame_alloc s n).1.frame_bitset ≠ s.frame_bitset) :
    (frame_alloc s n).2 % 32 + n ≤ 32 ∧
      (frame_alloc s n).2 / 32 < s.nframes / 32 ∧
      (frame_alloc s n).2 + n ≤ s.nframes := by
  obtain ⟨_, hc⟩ := frame_alloc_cases s n h1 h32
  rcases hc with ⟨a, _, c, _⟩ | ⟨i1, j1, hi1, _, _, hj, _, _, _, _, _, hres⟩
  · rcases hs with hs | hs
    · exact absurd c hs
    · exact absurd a hs
  · have hI : i1 < s.nframes / 32 := hi1
    have hlt : i1 * 32 + j1 < 2 ^ 32 := by omega
    rw [Nat.mod_eq_of_lt hlt] at hres
    rw [hres]
    omega

/-- C17 at a concrete state: frames 1, 2 and 3 are used and `frame_alloc(2)` returns 4. -/
theorem frame_alloc_run_in_word_witness :
    (frame_alloc run_state 2).2 % 32 + 2 ≤ 32 ∧
      (frame_alloc run_state 2).2 / 32 < run_state.nframes / 32 ∧
      (frame_alloc run_state 2).2 + 2 ≤ run_state.nframes :=
  frame_alloc_run_in_word run_state 2 (by decide) (by decide) (by decide)
    (Or.inl (by decide))

theorem frame_init_allocator_snd (mem : Nat → Nat) (total_ram kernel_data_end : Nat) :
    (frame_init_allocator mem total_ram kernel_data_end).2 =
      frame_init_data_end total_ram kernel_data_end := rfl

theorem frame_bit_cursor (m : FrameState) (c b : Nat) :
    frame_bit { m with begin_search_at := c } b = frame_bit m b := rfl

theorem in_bitmap_cursor (m : FrameState) (c b : Nat) :
    in_bitmap { m with begin_search_at := c } b ↔ in_bitmap m b := Iff.rfl

theorem nused_cursor (m : FrameState) (c : Nat) :
    ({ m with begin_search_at := c } : FrameState).nused_frames = m.nused_frames := rfl

/-- The kernel-page count of `frame_init_allocator` is the rounded-up quotient when the
bitmap ends inside the address space. -/
theorem frame_init_kernel_pages_eq (total_ram kernel_data_end : Nat)
    (hK : K_HIGHHALF_ADDR < kernel_data_end)
    (hvalid : kernel_data_end + 3 + ALIGN4_UP (PAGE_ID total_ram / 8) < 2 ^ 32) :
    frame_init_data_end total_ram kernel_data_end =
      (kernel_data_end + 3) / 4 * 4 + ALIGN4_UP (PAGE_ID total_ram / 8) ∧
    frame_init_kernel_pages total_ram kernel_data_end =
      (frame_init_data_end total_ram kernel_data_end - K_HIGHHALF_ADDR + (PAGE_SIZE - 1))
        / PAGE_SIZE ∧
    1 ≤ frame_init_kernel_pages total_ram kernel_data_end := by
  unfold frame_init_kernel_pages frame_init_data_end PAGE_ALIGN_UP
  generalize ALIGN4_UP (PAGE_ID total_ram / 8) = B at *
  unfold ALIGN4_UP PAGE_SIZE
  unfold K_HIGHHALF_ADDR at *
  omega

theorem marks_kernel_of_marked (m : FrameState) (kp c : Nat) (hkp : 1 ≤ kp)
    (hfit : kp ≤ 32 * bitset_words m) (hum : m.nused_frames = kp)
    (hbit : ∀ b, b < 32 * bitset_words m → (frame_bit m b = true ↔ b < kp)) :
    ({ m with begin_search_at := c } : FrameState).nused_frames = kp ∧
    1 ≤ ({ m with begin_search_at := c } : FrameState).nused_frames ∧
    ({ m with begin_search_at := c } : FrameState).nused_frames ≤
      32 * bitset_words { m with begin_search_at := c } ∧
    (∀ b, in_bitmap { m with begin_search_at := c } b →
      (frame_bit { m with begin_search_at := c } b = true ↔
        b < ({ m with begin_search_at := c } : FrameState).nused_frames)) := by
  refine ⟨hum, ?_, ?_, ?_⟩
  · show 1 ≤ m.nused_frames
    omega
  · show m.nused_frames ≤ 32 * bitset_words m
    omega
  · intro b hb
    show frame_bit m b = true ↔ b < m.nused_frames
    rw [hum]
    exact hbit b hb

/-- C13: for every `total_ram` and every initial `kernel_data_end` above
`K_HIGHHALF_ADDR` such that the bitmap ends inside the 32-bit address space and the kernel
pages fit in the bitmap, after `frame_init_allocator` the updated `kernel_data_end` is the
4-byte-aligned old value plus the bitmap size `ALIGN4_UP(nframes / 8)`, `nused_frames` is
`ceil((updated kernel_data_end - K_HIGHHALF_ADDR) / 4096)`, at least 1 (frame 0 is used)
and at most the number of bits of the bitmap, and a bit of the bitmap is set exactly when
its index is below `nused_frames`. -/
theorem frame_init_allocator_marks_kernel (mem : Nat → Nat)
    (total_ram kernel_data_end : Nat) (hK : K_HIGHHALF_ADDR < kernel_data_end)
    (hvalid : kernel_data_end + 3 + ALIGN4_UP (PAGE_ID total_ram / 8) < 2 ^ 32)
    (hfit : frame_init_kernel_pages total_ram kernel_data_end ≤
      32 * bitset_words (frame_init_allocator mem total_ram kernel_data_end).1) :
    (frame_init_allocator mem total_ram kernel_data_end).2 =
      (kernel_data_end + 3) / 4 * 4 + ALIGN4_UP (PAGE_ID total_ram / 8) ∧
    (frame_init_allocator mem total_ram kernel_data_end).1.nused_frames =
      ((frame_init_allocator mem total_ram kernel_data_end).2 - K_HIGHHALF_ADDR
        + (PAGE_SIZE - 1)) / PAGE_SIZE ∧
    1 ≤ (frame_init_allocator mem total_ram kernel_data_end).1.nused_frames ∧
    (frame_init_allocator mem total_ram kernel_data_end).1.nused_frames ≤
      32 * bitset_words (frame_init_allocator mem total_ram kernel_data_end).1 ∧
    (∀ b, in_bitmap (frame_init_allocator mem total_ram kernel_data_end).1 b →
      (frame_bit (frame_init_allocator mem total_ram kernel_data_end).1 b = true ↔
        b < (frame_init_allocator mem total_ram kernel_data_end).1.nused_frames)) := by
  obtain ⟨he, hp, h1⟩ := frame_init_kernel_pages_eq total_ram kernel_data_end hK hvalid
  have hk := frame_init_kernel_pages_lt total_ram kernel_data_end
  rw [frame_init_allocator_snd, ← hp]
  rw [frame_init_allocator_fst] at hfit ⊢
  rw [bitset_words_cursor] at hfit
  generalize frame_init_kernel_pages total_ram kernel_data_end = kp at *
  obtain ⟨hn, _, hu⟩ := frame_init_mark_spec
    (FrameState.mk (frame_init_zero mem (ALIGN4_UP (PAGE_ID total_ram / 8) / 4))
      (PAGE_ID total_ram) 0 0) (Nat.two_pow_pos 32) kp
  have hbit := frame_init_mark_bit
    (FrameState.mk (frame_init_zero mem (ALIGN4_UP (PAGE_ID total_ram / 8) / 4))
      (PAGE_ID total_ram) 0 0) kp
  have hw : bitset_words (frame_init_mark
      (FrameState.mk (frame_init_zero mem (ALIGN4_UP (PAGE_ID total_ram / 8) / 4))
        (PAGE_ID total_ram) 0 0) kp) = ALIGN4_UP (PAGE_ID total_ram / 8) / 4 := by
    unfold bitset_words
    rw [hn]
  have hzb := frame_init_zero_bit mem (ALIGN4_UP (PAGE_ID total_ram / 8) / 4)
    (PAGE_ID total_ram)
  generalize frame_init_mark
    (FrameState.mk (frame_init_zero mem (ALIGN4_UP (PAGE_ID total_ram / 8) / 4))
      (PAGE_ID total_ram) 0 0) kp = m at *
  have hum : m.nused_frames = kp := by
    rw [hu, Nat.zero_add, Nat.mod_eq_of_lt (by omega)]
  generalize INDEX_FROM_BIT kp = c
  refine ⟨he, marks_kernel_of_marked m kp c h1 hfit hum ?_⟩
  intro b hb
  rw [hw] at hb
  rw [hbit, hzb b hb]
  simp

/-- C13 at the spec's bootstrap scenario: 16 MiB of RAM and a kernel image ending at
`0xC0100000` give a 512-byte bitmap, 257 kernel pages and `nused_frames = 257`. -/
theorem frame_init_allocator_marks_kernel_witness :
    (frame_init_allocator (fun _ => 0) 0x1000000 0xC0100000).2 = 0xC0100200 ∧
      (frame_init_allocator (fun _ => 0) 0x1000000 0xC0100000).1.nused_frames = 257 :=
  ⟨(frame_init_allocator_marks_kernel (fun _ => 0) 0x1000000 0xC0100000 (by decide)
      (by decide) (by decide)).1,
    (frame_init_allocator_marks_kernel (fun _ => 0) 0x1000000 0xC0100000 (by decide)
      (by decide) (by decide)).2.1⟩

theorem frame_alloc_too_many_aux (s : FrameState) (n : Nat) (hn : n > 32) :
    frame_alloc s n = (s, 0) := by
  unfold frame_alloc
  rw [if_pos hn]

/-- A call `frame_alloc(n)` with `n ≥ 1` keeps `nframes`, and every set bit stays set. -/
theorem frame_alloc_keeps_bits (s : FrameState) (n : Nat) (h1 : 1 ≤ n) :
    (frame_alloc s n).1.nframes = s.nframes ∧
      ∀ b, frame_bit s b = true → frame_bit (frame_alloc s n).1 b = true := by
  by_cases h32 : n ≤ 32
  · obtain ⟨hn, hc⟩ := frame_alloc_cases s n h1 h32
    refine ⟨hn, ?_⟩
    intro b hb
    rcases hc with ⟨a, _, _, _⟩ | ⟨i1, j1, _, _, _, hj, _, _, _, hbs, _, _⟩
    · unfold frame_bit at hb ⊢
      rw [a]
      exact hb
    · rw [frame_bit_after_hit s _ n i1 j1 h32 hj hbs b, hb, Bool.true_or]
  · have hgt : n > 32 := by omega
    rw [(frame_alloc_too_many_aux s n hgt)]
    exact ⟨rfl, fun b hb => hb⟩

/-- C19 (as stated, refuted): at `x = 0` the expression `!x & PTE_PRESENT` is 1, not 0.
With a zero directory entry `pd_get_frame` returns 0 from its first check,
`pd_map_page` allocates a page table (`nused_frames` goes from 2 to 3) and
`pd_unmap_page` returns early, without the page fault that a read through the absent
table would raise. -/
theorem present_test_fires_on_zero :
    not_and_present 0 = 1 ∧
      load_pd fresh_state 0x800000 (PT_OF_ADDR 0x800000) = .ok 0 ∧
      pd_get_frame fresh_state 0x800000 = .ok 0 ∧
      fresh_state.frames.nused_frames = 2 ∧
      (pd_map_page_table fresh_state 0x800000).toOption.map
        (fun r => (r.1.frames.nused_frames, r.2)) = some (3, 0) ∧
      (pd_unmap_page fresh_state 0x800000).toOption.isSome = true ∧
      load32 fresh_state (current_pt_addr 2 0) = .error (.page_fault (current_pt_addr 2 0)) :=
  ⟨rfl, rfl, rfl, rfl, rfl, rfl, rfl⟩

/-- C19 (amended): for every entry value `x`, `!x & PTE_PRESENT` is 0 when `x ≠ 0` and 1
when `x = 0`. So the three operations treat every non-zero entry as present and only a
zero entry as absent: with non-zero directory and table entries `pd_get_frame` returns
the frame field of the table entry, with a non-zero directory entry `pd_map_page`
allocates nothing, and with non-zero entries `pd_unmap_page` goes on to the store of 0;
with a zero directory entry `pd_get_frame` returns 0 and `pd_unmap_page` returns at
once. -/
theorem present_test_is_zero_test :
    (∀ x, not_and_present x = if x = 0 then 1 else 0) ∧
    (∀ (s : PagingState) (v pde pte : Nat),
      load_pd s v (PT_OF_ADDR v) = .ok pde → pde ≠ 0 →
      load32 s (current_pt_addr (PT_OF_ADDR v) (PAGE_OF_ADDR v)) = .ok pte → pte ≠ 0 →
      pd_get_frame s v = .ok (pte >>> PTE_FRAME_SHIFT) ∧
        pd_unmap_page s v = store32 s (current_pt_addr (PT_OF_ADDR v) (PAGE_OF_ADDR v)) 0) ∧
    (∀ (s : PagingState) (v pde : Nat),
      load_pd s v (PT_OF_ADDR v) = .ok pde → pde ≠ 0 →
      pd_map_page_table s v = .ok (s, 0)) ∧
    (∀ (s : PagingState) (v : Nat), load_pd s v (PT_OF_ADDR v) = .ok 0 →
      pd_get_frame s v = .ok 0 ∧ pd_unmap_page s v = .ok s) := by
  have hz : ∀ x, x ≠ 0 → ¬ not_and_present x ≠ 0 :=
    fun x hx h => hx ((not_and_present_ne_zero x).1 h)
  refine ⟨?_, ?_, ?_, ?_⟩
  · intro x
    unfold not_and_present PTE_PRESENT
    by_cases h : x = 0
    · simp [h]
    · simp [h]
  · intro s v pde pte hpde hpde0 hpte hpte0
    constructor
    · unfold pd_get_frame
      simp only []
      rw [hpde]
      simp only []
      rw [if_neg (hz pde hpde0), hpte]
      simp only []
      rw [if_neg (hz pte hpte0)]
    · unfold pd_unmap_page
      simp only []
      rw [hpde]
      simp only []
      rw [if_neg (hz pde hpde0), hpte]
      simp only []
      rw [if_neg (hz pte hpte0)]
  · intro s v pde hpde hpde0
    unfold pd_map_page_table
    simp only []
    rw [hpde]
    simp only []
    rw [if_neg (hz pde hpde0)]
  · intro s v hpde
    have h0 : not_and_present 0 ≠ 0 := (not_and_present_ne_zero 0).2 rfl
    constructor
    · unfold pd_get_frame
      simp only []
      rw [hpde]
      simp only []
      rw [if_pos h0]
    · unfold pd_unmap_page
      simp only []
      rw [hpde]
      simp only []
      rw [if_pos h0]

/-- C19 (amended) at a concrete state: the entries of `0x401000` are `0x2003` and
`0x5000`, both non-zero, and the lookup returns the frame field 5. -/
theorem present_test_is_zero_test_witness : pd_get_frame stale_state 0x401000 = .ok 5 :=
  (present_test_is_zero_test.2.1 stale_state 0x401000 0x2003 0x5000 rfl (by decide) rfl
    (by decide)).1

/-- C11 (the code at a failing input): a process directory in frame 2 is active and
carries its mirror `0x2003`. A kernel-half `pd_map_page` whose directory entry 900 is set
in the kernel directory but not yet in the active one faults at the mirror address
`0xFFF84000` of `current_pt[900]`. For that address `page_fault_handler` computes the
directory index 1023, finds the active entry `0x2003` different from the kernel's
`0x1003` and copies the kernel's over it: the handler returns with entry 1023 of the
active directory naming the kernel directory, and P1 no longer holds. -/
theorem page_fault_handler_overwrites_mirror :
    P1 process_state ∧ process_state.mem 2 1023 = 0x2003 ∧
      pd_map_page process_state 0xE1000000 5 true = .error (.page_fault 0xFFF84000) ∧
      0xFFF84000 ≥ PD_MIRROR_ADDR ∧ PT_OF_ADDR 0xFFF84000 = 1023 ∧
      ((page_fault_handler 0xC0005000 process_state 0xFFF84000).toOption.bind
          FaultResult.returned).map (fun t => (t.cr3, t.mem 2 1023, decide (P1 t))) =
        some (2, 0x1003, false) :=
  ⟨by decide, rfl, rfl, by decide, rfl, rfl⟩

/-- C20 (the code at a failing input): the directory entry of `0x800000` is zero, so
`pd_get_frame(0x807000)` returns 0. `pd_map_page(0x800000, 5, true)` allocates frame 2 as
the page table and installs it without clearing it; word 7 of that frame still holds
`0x9001`, so afterwards `pd_get_frame(0x807000)`, an address in another page that was
never mapped, returns frame 9. -/
theorem pd_map_page_exposes_stale_table :
    P1 fresh_state ∧ 0x800000 < PD_MIRROR_ADDR ∧ 0x807000 < PD_MIRROR_ADDR ∧
      PAGE_OF_ADDR 0x800000 ≠ PAGE_OF_ADDR 0x807000 ∧
      pd_get_frame fresh_state 0x807000 = .ok 0 ∧
      pd_map_then_get_at fresh_state 0x800000 5 true 0x807000 = .ok (0, 9) :=
  ⟨by decide, by decide, by decide, by decide, rfl, rfl⟩

/-! ## The loops of paging_setup -/

theorem paging_setup_clear_fields (pt0 n : Nat) (s : PagingState) (k : Nat) :
    (paging_setup_clear pt0 n s k).frames = s.frames ∧
      (paging_setup_clear pt0 n s k).kernel_pd = s.kernel_pd := by
  induction k with
  | zero => exact ⟨rfl, rfl⟩
  | succ k ih => exact ih

theorem paging_setup_clear_mem (pt0 n : Nat) (s : PagingState) (k f i : Nat)
    (h : f ≠ pt0 ∨ i < n) : (paging_setup_clear pt0 n s k).mem f i = s.mem f i := by
  induction k with
  | zero => rfl
  | succ k ih =>
    show mem_write (paging_setup_clear pt0 n s k).mem pt0 (n + k) 0 f i = _
    rw [mem_write_apply, if_neg, ih]
    rintro ⟨h1, h2⟩
    rcases h with h | h
    · exact h h1
    · omega

theorem paging_setup_map_kernel_pd (sp pt0 : Nat) (s : PagingState) (k : Nat) :
    (paging_setup_map sp pt0 s k).kernel_pd = s.kernel_pd := by
  induction k with
  | zero => rfl
  | succ k ih =>
    rw [paging_setup_map]
    split
    · exact ih
    · exact ih

/-- When the assertion of `paging_setup` holds, the function returns; the allocator is
the one its first loop leaves, and so are the entries of `kernel_pt0` below
`n_kernel_pages` (the table is not the frame of `kernel_pd`). -/
theorem paging_setup_view (sp pt0 : Nat) (s : PagingState) (kde n : Nat)
    (hn : n_kernel_pages kde = n) (hle : n ≤ 1024) (hpt : pt0 ≠ s.kernel_pd) :
    ∃ t, paging_setup sp pt0 s kde = .ok t ∧
      t.frames = (paging_setup_map sp pt0 s n).frames ∧
      ∀ i, i < n → t.mem pt0 i = (paging_setup_map sp pt0 s n).mem pt0 i := by
  have hk : (paging_setup_clear pt0 n (paging_setup_map sp pt0 s n) (1024 - n)).kernel_pd
      = s.kernel_pd := by
    rw [(paging_setup_clear_fields pt0 n _ _).2, paging_setup_map_kernel_pd]
  refine ⟨paging_setup_install pt0
    (paging_setup_clear pt0 n (paging_setup_map sp pt0 s n) (1024 - n)), ?_, ?_, ?_⟩
  · unfold paging_setup
    rw [hn]
    exact if_neg (fun h => h hle)
  · exact (paging_setup_clear_fields pt0 n _ _).1
  · intro i hi
    unfold paging_setup_install
    simp only [mem_write_apply, hk]
    rw [if_neg (fun h => hpt h.1), if_neg (fun h => hpt h.1)]
    exact paging_setup_clear_mem pt0 n _ _ pt0 i (Or.inr hi)

set_option maxRecDepth 100000 in
/-- C14 (the code at a failing input): the spec's bootstrap scenario, 16 MiB of RAM and a
kernel image that ends at `0xC0100000`, with the stack-guard page at `0xC0005000`, page
g = 5 of the kernel. `frame_init_allocator` moves the end of kernel data to `0xC0100200`
and marks frames 0 to 256, so `n_kernel_pages` is 257. After `paging_setup` entry 5 of
`kernel_pt0` is zero, but `frame_free(5, 1)` has computed `idx = base + n/32 = 5` and
`ofs = base + n%32 = 6`: frame 5 is still marked used, and bit 6 of word 5, frame 166,
which holds kernel data and stays mapped by entry 166 = `0xA6103`, is marked free
(`nused_frames` is 256). -/
theorem paging_setup_frees_wrong_frame :
    (frame_init_allocator (fun _ => 0) 0x1000000 0xC0100000).2 = 0xC0100200 ∧
      n_kernel_pages 0xC0100200 = 257 ∧
      frame_bit (frame_init_allocator (fun _ => 0) 0x1000000 0xC0100000).1 166 = true ∧
      frame_free_word 5 1 = 5 ∧ frame_free_bit 5 1 = 166 ∧
      ∃ s, kmain_memory_setup (fun _ _ => 0) (fun _ => 0) 0x1000000 0xC0100000 0xC0005000 2 3
          = .ok s ∧
        guard_view 3 5 s = (true, true, 256, 0, 0x6103) ∧
        frame_bit s.frames 166 = false ∧ s.mem 3 166 = 0xA6103 := by
  have h2 : (frame_init_allocator (fun _ => 0) 0x1000000 0xC0100000).2 = 0xC0100200 := by
    decide
  have h9 : n_kernel_pages 0xC0100200 = 257 := by decide
  refine ⟨h2, h9, by decide, by decide, by decide, ?_⟩
  unfold kmain_memory_setup
  simp only []
  rw [h2]
  obtain ⟨t, ht, hf, hm⟩ := paging_setup_view 0xC0005000 3
    (PagingState.mk (fun _ _ => 0) 2 2 (frame_init_allocator (fun _ => 0) 0x1000000 0xC0100000).1)
    0xC0100200 257 h9 (by omega) (by decide)
  refine ⟨t, ht, ?_, ?_, ?_⟩
  · unfold guard_view
    rw [hf, hm 5 (by omega), hm 6 (by omega)]
    decide
  · rw [hf]
    decide
  · rw [hm 166 (by omega)]
    decide

/-! ## Lemmas about create_pagedir -/

/-- A successful `frame_alloc(1)` returns a frame below `nframes` that was free and is now
used, and leaves every used frame used. -/
theorem frame_alloc_one_fresh (s : FrameState) (hnf : s.nframes ≤ 2 ^ 20)
    (hp : (frame_alloc s 1).2 ≠ 0) :
    (frame_alloc s 1).2 < 2 ^ 20 ∧ frame_bit s (frame_alloc s 1).2 = false ∧
      frame_bit (frame_alloc s 1).1 (frame_alloc s 1).2 = true ∧
      (frame_alloc s 1).1.nframes = s.nframes ∧
      ∀ b, frame_bit s b = true → frame_bit (frame_alloc s 1).1 b = true := by
  obtain ⟨hn, hc⟩ := frame_alloc_cases s 1 (le_refl 1) (by omega)
  have hk := frame_alloc_keeps_bits s 1 (le_refl 1)
  rcases hc with hf | ⟨i1, j1, hi1, hh⟩
  · exact absurd hf.2.2.1 hp
  · obtain ⟨_, _, hj, hz, _, _, hbs, _, hres⟩ := hh
    have hlt : i1 * 32 + j1 < 2 ^ 20 := by
      unfold INDEX_FROM_BIT at hi1
      omega
    have hlt2 : i1 * 32 + j1 < 2 ^ 32 := by omega
    rw [Nat.mod_eq_of_lt hlt2] at hres
    rw [hres]
    refine ⟨hlt, frame_bit_before_hit s 1 i1 j1 (by omega) hj hz _ (le_refl _) (by omega),
      ?_, hn, hk.2⟩
    rw [frame_bit_after_hit s _ 1 i1 j1 (by omega) hj hbs]
    simp

theorem window_addr (temp k : Nat) (hal : temp % PAGE_SIZE = 0) (hk : k < 1024) :
    PT_OF_ADDR (temp + 4 * k) = PT_OF_ADDR temp ∧
      PAGE_OF_ADDR (temp + 4 * k) = PAGE_OF_ADDR temp ∧
      (temp + 4 * k) % PAGE_SIZE / 4 = k := by
  unfold PT_OF_ADDR PAGE_OF_ADDR PAGE_SHIFT PT_SHIFT N_PAGES_IN_PT
  unfold PAGE_SIZE at *
  rw [Nat.shiftRight_eq_div_pow, Nat.shiftRight_eq_div_pow, Nat.shiftRight_eq_div_pow,
    Nat.shiftRight_eq_div_pow]
  norm_num
  omega

theorem mmu_walk_congr (s : PagingState) (a b : Nat) (h1 : PT_OF_ADDR a = PT_OF_ADDR b)
    (h2 : PAGE_OF_ADDR a = PAGE_OF_ADDR b) : mmu_walk s a = mmu_walk s b := by
  unfold mmu_walk
  rw [h1, h2]

theorem same_outside_refl (p : Nat) (s : PagingState) : same_outside p s s :=
  ⟨rfl, rfl, rfl, fun _ _ _ => rfl⟩

/-- Stores into frame `p` do not move a window onto `p`. -/
theorem window_same_outside (p : Nat) (s t : PagingState) (temp : Nat)
    (hso : same_outside p s t) (hw : window s temp p) : window t temp p := by
  obtain ⟨hc, _, _, hm⟩ := hso
  obtain ⟨h1, h2, h3⟩ := hw
  have hd : t.mem t.cr3 (PT_OF_ADDR temp) = s.mem s.cr3 (PT_OF_ADDR temp) := by
    rw [hc]
    exact hm _ _ (fun h => h2 h.symm)
  refine ⟨?_, by rw [hc]; exact h2, by rw [hd]; exact h3⟩
  unfold mmu_walk at h1 ⊢
  simp only [] at h1 ⊢
  rw [hd, hm _ _ (fun h => h3 h.symm)]
  exact h1

/-- A store to word `k` of the window lands in word `k` of frame `p`. -/
theorem store32_window (p : Nat) (s t : PagingState) (temp k v : Nat)
    (hal : temp % PAGE_SIZE = 0) (hk : k < 1024) (hso : same_outside p s t)
    (hw : window s temp p) :
    ∃ t', store32 t (temp + 4 * k) v = .ok t' ∧ same_outside p s t' ∧
      ∀ i, t'.mem p i = if i = k then v else t.mem p i := by
  obtain ⟨ha1, ha2, ha3⟩ := window_addr temp k hal hk
  have hwt := window_same_outside p s t temp hso hw
  refine ⟨{ t with mem := mem_write t.mem p k v }, ?_, ?_, ?_⟩
  · unfold store32
    rw [mmu_walk_congr t _ temp ha1 ha2, hwt.1]
    simp only []
    rw [ha3]
  · refine ⟨hso.1, hso.2.1, hso.2.2.1, fun f i hf => ?_⟩
    show mem_write t.mem p k v f i = _
    rw [mem_write_apply, if_neg (fun h => hf h.1)]
    exact hso.2.2.2 f i hf
  · intro i
    show mem_write t.mem p k v p i = _
    rw [mem_write_apply]
    by_cases hik : i = k
    · rw [if_pos ⟨rfl, hik⟩, if_pos hik]
    · rw [if_neg (fun h => hik h.2), if_neg hik]

theorem create_pagedir_zero_spec (p : Nat) (s : PagingState) (temp : Nat)
    (hal : temp % PAGE_SIZE = 0) (hw : window s temp p) (k : Nat) (hk : k ≤ 1024) :
    ∃ t, create_pagedir_zero temp s k = .ok t ∧ same_outside p s t ∧
      ∀ i, t.mem p i = if i < k then 0 else s.mem p i := by
  induction k with
  | zero => exact ⟨s, rfl, same_outside_refl p s, fun i => by simp⟩
  | succ k ih =>
    obtain ⟨t, ht, hso, hm⟩ := ih (by omega)
    obtain ⟨t', ht', hso', hm'⟩ := store32_window p s t temp k 0 hal (by omega) hso hw
    refine ⟨t', ?_, hso', fun i => ?_⟩
    · rw [create_pagedir_zero, ht]
      exact ht'
    · rw [hm', hm]
      by_cases hik : i = k
      · rw [if_pos hik, if_pos (by omega)]
      · rw [if_neg hik]
        by_cases hlt : i < k
        · rw [if_pos hlt, if_pos (by omega)]
        · rw [if_neg hlt, if_neg (by omega)]

theorem create_pagedir_copy_spec (p : Nat) (s0 s : PagingState) (temp : Nat)
    (hal : temp % PAGE_SIZE = 0) (hw : window s0 temp p) (hso : same_outside p s0 s)
    (hpk : p ≠ s0.kernel_pd) (k : Nat) (hk : FIRST_KERNEL_PT + k ≤ 1024) :
    ∃ t, create_pagedir_copy temp s k = .ok t ∧ same_outside p s0 t ∧
      ∀ i, t.mem p i =
        if FIRST_KERNEL_PT ≤ i ∧ i < FIRST_KERNEL_PT + k then s0.mem s0.kernel_pd i
        else s.mem p i := by
  induction k with
  | zero => exact ⟨s, rfl, hso, fun i => (if_neg (by omega)).symm⟩
  | succ k ih =>
    obtain ⟨t, ht, hsot, hm⟩ := ih (by omega)
    obtain ⟨t', ht', hso', hm'⟩ := store32_window p s0 t temp (FIRST_KERNEL_PT + k)
      (t.mem t.kernel_pd (FIRST_KERNEL_PT + k)) hal (by omega) hsot hw
    refine ⟨t', ?_, hso', fun i => ?_⟩
    · rw [create_pagedir_copy, ht]
      exact ht'
    · rw [hm', hm]
      by_cases hik : i = FIRST_KERNEL_PT + k
      · rw [if_pos hik, if_pos (by omega), hsot.2.1, hik]
        exact hsot.2.2.2 _ _ (fun h => hpk h.symm)
      · rw [if_neg hik]
        by_cases hlt : FIRST_KERNEL_PT ≤ i ∧ i < FIRST_KERNEL_PT + k
        · rw [if_pos hlt, if_pos (by omega)]
        · rw [if_neg hlt, if_neg (by omega)]

theorem create_pagedir_fill_spec (p : Nat) (s : PagingState) (temp phys : Nat)
    (hal : temp % PAGE_SIZE = 0) (hw : window s temp p) (hpk : p ≠ s.kernel_pd) :
    ∃ t, create_pagedir_fill temp phys s = .ok t ∧ same_outside p s t ∧
      (∀ i, i < FIRST_KERNEL_PT → t.mem p i = 0) ∧
      (∀ i, FIRST_KERNEL_PT ≤ i → i ≤ 1022 → t.mem p i = s.mem s.kernel_pd i) ∧
      t.mem p 1023 = phys ||| PTE_PRESENT ||| PTE_RW := by
  have hF : FIRST_KERNEL_PT = 768 := rfl
  have hN : N_PAGES_IN_PT = 1024 := rfl
  obtain ⟨t1, ht1, hso1, hm1⟩ := create_pagedir_zero_spec p s temp hal hw 1024 (le_refl _)
  obtain ⟨t2, ht2, hso2, hm2⟩ := create_pagedir_copy_spec p s t1 temp hal hw hso1 hpk 255
    (by omega)
  obtain ⟨t3, ht3, hso3, hm3⟩ := store32_window p s t2 temp 1023
    (phys ||| PTE_PRESENT ||| PTE_RW) hal (by omega) hso2 hw
  refine ⟨t3, ?_, hso3, fun i hi => ?_, fun i hi1 hi2 => ?_, ?_⟩
  · unfold create_pagedir_fill
    have h255 : 1024 - 1 - FIRST_KERNEL_PT = 255 := rfl
    rw [hN, ht1]
    simp only []
    rw [h255, ht2]
    exact ht3
  · rw [hm3, if_neg (by omega), hm2, if_neg (by omega), hm1, if_pos (by omega)]
  · rw [hm3, if_neg (by omega), hm2, if_pos (by omega)]
  · rw [hm3, if_pos rfl]

/-- When lines 185 to 195 of `pd_map_page` go on to the table entry, either nothing has
changed or the directory entry of `v` names the frame that `frame_alloc(1)` returned. -/
theorem pd_map_page_table_frame (s s1 : PagingState) (v : Nat) (hP : P1 s)
    (hpt : PT_OF_ADDR v < 1023) (h : pd_map_page_table s v = .ok (s1, 0)) :
    s1 = s ∨ ((frame_alloc s.frames 1).2 ≠ 0 ∧
      s1.mem s1.cr3 (PT_OF_ADDR v) =
        ((frame_alloc s.frames 1).2 <<< PTE_FRAME_SHIFT) % 2 ^ 32 ||| PTE_PRESENT
          ||| PTE_RW) := by
  unfold pd_map_page_table at h
  simp only [] at h
  cases hl : load_pd s v (PT_OF_ADDR v) with
  | error e => rw [hl] at h; simp at h
  | ok pde =>
    rw [hl] at h
    simp only [] at h
    by_cases hz : not_and_present pde ≠ 0
    · rw [if_pos hz] at h
      by_cases hnew : (frame_alloc s.frames 1).2 = 0
      · rw [if_pos hnew] at h
        simp at h
      · rw [if_neg hnew] at h
        refine Or.inr ⟨hnew, ?_⟩
        generalize ((frame_alloc s.frames 1).2 <<< PTE_FRAME_SHIFT) % 2 ^ 32
          ||| PTE_PRESENT ||| PTE_RW = val at h ⊢
        have hP0 : P1 { s with frames := (frame_alloc s.frames 1).1 } := hP
        generalize ({ s with frames := (frame_alloc s.frames 1).1 } : PagingState) = s0
          at h hP0
        by_cases hk : v ≥ K_HIGHHALF_ADDR
        · unfold store_pd at h
          rw [if_pos hk] at h
          simp only [] at h
          have hP2 : P1 { s0 with mem := mem_write s0.mem s0.kernel_pd (PT_OF_ADDR v) val } :=
            P1_mem_write s0 hP0 _ _ _ (Or.inr (by omega))
          rw [store32_current_pd _ hP2 _ _ (by omega)] at h
          simp only [Except.ok.injEq, Prod.mk.injEq, and_true] at h
          subst h
          simp [mem_write_apply]
        · unfold store_pd at h
          rw [if_neg hk, store32_current_pd _ hP0 _ _ (by omega)] at h
          simp only [] at h
          have hP2 : P1 { s0 with mem := mem_write s0.mem s0.cr3 (PT_OF_ADDR v) val } :=
            P1_mem_write s0 hP0 _ _ _ (Or.inr (by omega))
          rw [store32_current_pd _ hP2 _ _ (by omega)] at h
          simp only [Except.ok.injEq, Prod.mk.injEq, and_true] at h
          subst h
          simp [mem_write_apply]
    · rw [if_neg hz] at h
      simp only [Except.ok.injEq, Prod.mk.injEq, and_true] at h
      exact Or.inl h.symm

theorem table_entry_frame (q : Nat) (hq : q < 2 ^ 20) :
    ((q <<< PTE_FRAME_SHIFT) % 2 ^ 32 ||| PTE_PRESENT ||| PTE_RW) >>> PTE_FRAME_SHIFT = q := by
  have h1 : (q <<< PTE_FRAME_SHIFT) % 2 ^ 32 = q <<< 12 := by
    unfold PTE_FRAME_SHIFT
    rw [Nat.shiftLeft_eq]
    apply Nat.mod_eq_of_lt
    omega
  rw [h1, Nat.lor_assoc]
  exact frame_field q _ (by decide)

/-- After a successful `pd_map_page(temp, p, true)` the page at `temp` is a window onto
frame `p`, when the frames in use (the directories, the page table of `temp` and `p`
itself) are marked used and the page table is not a directory. -/
theorem pd_map_page_window (s s2 : PagingState) (temp p : Nat) (hP : P1 s)
    (hnf : s.frames.nframes ≤ 2 ^ 20) (hp : p < 2 ^ 20)
    (hpb : frame_bit s.frames p = true) (hcb : frame_bit s.frames s.cr3 = true)
    (hkb : frame_bit s.frames s.kernel_pd = true) (hpc : p ≠ s.cr3)
    (htab : s.mem s.cr3 (PT_OF_ADDR temp) ≠ 0 →
      s.mem s.cr3 (PT_OF_ADDR temp) >>> PTE_FRAME_SHIFT ≠ p ∧
      s.mem s.cr3 (PT_OF_ADDR temp) >>> PTE_FRAME_SHIFT ≠ s.cr3 ∧
      s.mem s.cr3 (PT_OF_ADDR temp) >>> PTE_FRAME_SHIFT ≠ s.kernel_pd)
    (h : pd_map_page s temp p true = .ok (s2, 0)) :
    temp < PD_MIRROR_ADDR ∧ P1 s2 ∧ s2.cr3 = s.cr3 ∧ s2.kernel_pd = s.kernel_pd ∧
      window s2 temp p ∧
      s2.mem s2.cr3 (PT_OF_ADDR temp) &&& PTE_PRESENT ≠ 0 ∧
      s2.mem s2.cr3 (PT_OF_ADDR temp) >>> PTE_FRAME_SHIFT ≠ s2.kernel_pd := by
  obtain ⟨hv, s1, ht, hs⟩ := pd_map_page_ok s s2 temp p true h
  have hpt := PT_OF_ADDR_lt temp hv
  have hpage := PAGE_OF_ADDR_lt temp
  obtain ⟨hP1, hc1, hk1, _⟩ := pd_map_page_table_ok s s1 temp hP hpt ht
  obtain ⟨hpr, hs2⟩ := store32_current_pt s1 s2 hP1 _ _ _ (by omega) hpage hs
  have hq : s1.mem s1.cr3 (PT_OF_ADDR temp) >>> PTE_FRAME_SHIFT ≠ p ∧
      s1.mem s1.cr3 (PT_OF_ADDR temp) >>> PTE_FRAME_SHIFT ≠ s.cr3 ∧
      s1.mem s1.cr3 (PT_OF_ADDR temp) >>> PTE_FRAME_SHIFT ≠ s.kernel_pd := by
    rcases pd_map_page_table_frame s s1 temp hP hpt ht with h1 | ⟨hne, hent⟩
    · rw [h1] at hpr ⊢
      apply htab
      intro h0
      rw [h0] at hpr
      exact hpr (Nat.zero_and _)
    · obtain ⟨hlt, hfree, _, _, _⟩ := frame_alloc_one_fresh s.frames hnf hne
      rw [hent, table_entry_frame _ hlt]
      refine ⟨fun e => ?_, fun e => ?_, fun e => ?_⟩
      · rw [e, hpb] at hfree
        exact Bool.noConfusion hfree
      · rw [e, hcb] at hfree
        exact Bool.noConfusion hfree
      · rw [e, hkb] at hfree
        exact Bool.noConfusion hfree
  have hEp : pd_map_page_entry temp p true &&& PTE_PRESENT ≠ 0 :=
    (present_iff_testBit _).2 (pd_map_page_entry_present temp p true)
  have hEf := pd_map_page_entry_frame temp p true hp
  generalize pd_map_page_entry temp p true = E at *
  generalize hFdef : s1.mem s1.cr3 (PT_OF_ADDR temp) >>> PTE_FRAME_SHIFT = F at *
  obtain ⟨hq1, hq2, hq3⟩ := hq
  have hcr3 : s2.cr3 = s1.cr3 := by rw [hs2]
  have hkpd : s2.kernel_pd = s1.kernel_pd := by rw [hs2]
  have hmem : ∀ f' i', s2.mem f' i' =
      if f' = F ∧ i' = PAGE_OF_ADDR temp then E else s1.mem f' i' := by
    intro f' i'
    rw [hs2]
    exact mem_write_apply _ _ _ _ _ _
  have hdir : s2.mem s2.cr3 (PT_OF_ADDR temp) = s1.mem s1.cr3 (PT_OF_ADDR temp) := by
    rw [hmem, hcr3, if_neg (fun hh => hq2 (hh.1.symm.trans hc1))]
  have hP2 : P1 s2 := by
    rw [hs2]
    exact P1_mem_write s1 hP1 F _ E (Or.inl (fun e => hq2 (e.trans hc1)))
  refine ⟨hv, hP2, hcr3.trans hc1, hkpd.trans hk1, ⟨?_, ?_, ?_⟩, ?_, ?_⟩
  · unfold mmu_walk
    simp only []
    have hpte : s2.mem F (PAGE_OF_ADDR temp) = E := (hmem _ _).trans (if_pos ⟨rfl, rfl⟩)
    rw [hdir, if_neg hpr, hFdef, hpte, if_neg hEp, hEf]
  · rw [hcr3, hc1]
    exact hpc
  · rw [hdir, hFdef]
    exact fun e => hq1 e.symm
  · rw [hdir]
    exact hpr
  · rw [hdir, hFdef, hkpd, hk1]
    exact hq3

theorem store32_current_pt_present (s : PagingState) (hP : P1 s) (pt page v : Nat)
    (hpt : pt < 1024) (hpage : page < 1024) (hpr : s.mem s.cr3 pt &&& PTE_PRESENT ≠ 0) :
    store32 s (current_pt_addr pt page) v =
      .ok { s with mem := mem_write s.mem (s.mem s.cr3 pt >>> PTE_FRAME_SHIFT) page v } := by
  unfold store32
  rw [mmu_walk_mirror s hP pt page hpt hpage, if_neg hpr, word_of_mirror pt page hpage]

theorem load_pd_ok (s : PagingState) (hP : P1 s) (v : Nat) (hpt : PT_OF_ADDR v < 1023) :
    ∃ pde, load_pd s v (PT_OF_ADDR v) = .ok pde := by
  unfold load_pd
  by_cases hk : v ≥ K_HIGHHALF_ADDR
  · rw [if_pos hk]
    exact ⟨_, rfl⟩
  · rw [if_neg hk, load32_current_pd s hP _ (by omega)]
    exact ⟨_, rfl⟩

/-- When the directory entry of `v` in the active directory is present, `pd_unmap_page(v)`
returns, and it changes at most the page table that this entry names. -/
theorem pd_unmap_page_frame (s : PagingState) (v : Nat) (hP : P1 s)
    (hpt : PT_OF_ADDR v < 1023) (hpr : s.mem s.cr3 (PT_OF_ADDR v) &&& PTE_PRESENT ≠ 0) :
    ∃ s', pd_unmap_page s v = .ok s' ∧ s'.cr3 = s.cr3 ∧ s'.kernel_pd = s.kernel_pd ∧
      ∀ f i, f ≠ s.mem s.cr3 (PT_OF_ADDR v) >>> PTE_FRAME_SHIFT → s'.mem f i = s.mem f i := by
  have hpage := PAGE_OF_ADDR_lt v
  obtain ⟨pde, hl⟩ := load_pd_ok s hP v hpt
  unfold pd_unmap_page
  simp only []
  rw [hl]
  simp only []
  by_cases hz : not_and_present pde ≠ 0
  · rw [if_pos hz]
    exact ⟨s, rfl, rfl, rfl, fun _ _ _ => rfl⟩
  · rw [if_neg hz, load32_current_pt s hP _ _ (by omega) hpage hpr]
    simp only []
    split
    · exact ⟨s, rfl, rfl, rfl, fun _ _ _ => rfl⟩
    · rw [store32_current_pt_present s hP _ _ _ (by omega) hpage hpr]
      refine ⟨_, rfl, rfl, rfl, fun f i hf => ?_⟩
      show mem_write s.mem _ _ 0 f i = _
      rw [mem_write_apply, if_neg (fun hh => hf hh.1)]

set_option maxRecDepth 10000 in
/-- A successful `create_pagedir` has passed its three tests and its `pd_map_page` has
returned 0. -/
theorem create_pagedir_some (s s' : PagingState) (pd temp : Nat) (d : pagedir_t)
    (h : create_pagedir s pd temp = .ok (s', some d)) :
    (frame_alloc s.frames 1).2 ≠ 0 ∧ pd ≠ 0 ∧ temp ≠ 0 ∧
      ∃ s2, pd_map_page { s with frames := (frame_alloc s.frames 1).1 } temp
        (frame_alloc s.frames 1).2 true = .ok (s2, 0) := by
  unfold create_pagedir at h
  simp only [] at h
  by_cases h1 : (frame_alloc s.frames 1).2 = 0
  · rw [if_pos h1] at h
    simp at h
  · rw [if_neg h1] at h
    by_cases h2 : pd = 0
    · rw [if_pos h2] at h
      simp at h
    · rw [if_neg h2] at h
      by_cases h3 : temp = 0
      · rw [if_pos h3] at h
        simp at h
      · rw [if_neg h3] at h
        refine ⟨h1, h2, h3, ?_⟩
        generalize pd_map_page { s with frames := (frame_alloc s.frames 1).1 } temp
          (frame_alloc s.frames 1).2 true = r at h ⊢
        match r, h with
        | .error e, h => simp at h
        | .ok (s2, st), h =>
          simp only [] at h
          by_cases h4 : st ≠ 0
          · rw [if_pos h4] at h
            simp at h
          · rw [not_not.1 h4]
            exact ⟨s2, rfl⟩

set_option maxRecDepth 10000 in
/-- What `create_pagedir` does once its frame, its descriptor and its temporary page are
there and `pd_map_page` has returned 0: it returns the descriptor of the frame `p` that
`frame_alloc(1)` gave, and frame `p` holds an empty user half, the kernel directory's
entries and the mirror. -/
theorem create_pagedir_spec (s s2 : PagingState) (pd temp : Nat)
    (hP : P1 s) (hal : temp % PAGE_SIZE = 0) (hnf : s.frames.nframes ≤ 2 ^ 20)
    (hcb : frame_bit s.frames s.cr3 = true) (hkb : frame_bit s.frames s.kernel_pd = true)
    (htab : s.mem s.cr3 (PT_OF_ADDR temp) ≠ 0 →
      frame_bit s.frames (s.mem s.cr3 (PT_OF_ADDR temp) >>> PTE_FRAME_SHIFT) = true ∧
      s.mem s.cr3 (PT_OF_ADDR temp) >>> PTE_FRAME_SHIFT ≠ s.cr3 ∧
      s.mem s.cr3 (PT_OF_ADDR temp) >>> PTE_FRAME_SHIFT ≠ s.kernel_pd)
    (hp0 : (frame_alloc s.frames 1).2 ≠ 0) (hpd : pd ≠ 0) (htemp : temp ≠ 0)
    (hmap : pd_map_page { s with frames := (frame_alloc s.frames 1).1 } temp
      (frame_alloc s.frames 1).2 true = .ok (s2, 0)) :
    ∃ s', create_pagedir s pd temp =
        .ok (s', some { phys_addr := (frame_alloc s.frames 1).2 * PAGE_SIZE }) ∧
      (∀ i, i < FIRST_KERNEL_PT → s'.mem (frame_alloc s.frames 1).2 i = 0) ∧
      (∀ i, FIRST_KERNEL_PT ≤ i → i ≤ 1022 →
        s'.mem (frame_alloc s.frames 1).2 i = s'.mem s'.kernel_pd i) ∧
      s'.mem (frame_alloc s.frames 1).2 1023 =
        ((frame_alloc s.frames 1).2 * PAGE_SIZE) ||| PTE_PRESENT ||| PTE_RW := by
  obtain ⟨hlt, hfree, hset, hnf1, hkeep⟩ := frame_alloc_one_fresh s.frames hnf hp0
  have hpc : (frame_alloc s.frames 1).2 ≠ s.cr3 := by
    intro e
    rw [e, hcb] at hfree
    exact Bool.noConfusion hfree
  have hpk : (frame_alloc s.frames 1).2 ≠ s.kernel_pd := by
    intro e
    rw [e, hkb] at hfree
    exact Bool.noConfusion hfree
  have hphys : ((frame_alloc s.frames 1).2 * PAGE_SIZE) % 2 ^ 32
      = (frame_alloc s.frames 1).2 * PAGE_SIZE := by
    apply Nat.mod_eq_of_lt
    unfold PAGE_SIZE
    omega
  unfold create_pagedir
  simp only []
  rw [if_neg hp0, if_neg hpd, if_neg htemp, hmap]
  simp only []
  rw [if_neg (fun hh => hh rfl), hphys]
  generalize (frame_alloc s.frames 1).2 = p at *
  generalize (frame_alloc s.frames 1).1 = fs at *
  have htab1 : s.mem s.cr3 (PT_OF_ADDR temp) ≠ 0 →
      s.mem s.cr3 (PT_OF_ADDR temp) >>> PTE_FRAME_SHIFT ≠ p ∧
      s.mem s.cr3 (PT_OF_ADDR temp) >>> PTE_FRAME_SHIFT ≠ s.cr3 ∧
      s.mem s.cr3 (PT_OF_ADDR temp) >>> PTE_FRAME_SHIFT ≠ s.kernel_pd := by
    intro hne
    obtain ⟨hb, h2, h3⟩ := htab hne
    refine ⟨fun e => ?_, h2, h3⟩
    rw [e, hfree] at hb
    exact Bool.noConfusion hb
  obtain ⟨hv, hP2, hc2, hk2, hwin, hpr2, hqk⟩ :=
    pd_map_page_window (PagingState.mk s.mem s.cr3 s.kernel_pd fs) s2 temp p hP
      (by rw [← hnf1] at hnf; exact hnf) hlt hset (hkeep _ hcb) (hkeep _ hkb) hpc htab1 hmap
  have hpt := PT_OF_ADDR_lt temp hv
  have hc2s : s2.cr3 = s.cr3 := hc2
  have hk2s : s2.kernel_pd = s.kernel_pd := hk2
  obtain ⟨t, hfill, hso, hz, hkk, hmm⟩ :=
    create_pagedir_fill_spec p s2 temp (p * PAGE_SIZE) hal hwin (by rw [hk2s]; exact hpk)
  obtain ⟨hct, hkt, _, hmt⟩ := hso
  have hdt : t.mem t.cr3 (PT_OF_ADDR temp) = s2.mem s2.cr3 (PT_OF_ADDR temp) := by
    rw [hct]
    exact hmt _ _ (by rw [hc2s]; exact fun e => hpc e.symm)
  have hPt : P1 t := by
    unfold P1 at hP2 ⊢
    rw [hct, hmt _ _ (by rw [hc2s]; exact fun e => hpc e.symm)]
    exact hP2
  obtain ⟨s', hun, hc', hk', hm'⟩ :=
    pd_unmap_page_frame t temp hPt hpt (by rw [hdt]; exact hpr2)
  rw [hdt] at hm'
  have hp' : ∀ i, s'.mem p i = t.mem p i := fun i => hm' p i hwin.2.2
  have hkd : ∀ i, s'.mem s'.kernel_pd i = s2.mem s2.kernel_pd i := by
    intro i
    rw [hk', hm' _ _ (by rw [hkt]; exact fun e => hqk e.symm), hkt]
    exact hmt _ _ (by rw [hk2s]; exact fun e => hpk e.symm)
  refine ⟨s', ?_, fun i hi => ?_, fun i h1 h2 => ?_, ?_⟩
  · rw [hfill]
    simp only []
    unfold region_free_unmap
    rw [hun]
  · rw [hp', hz i hi]
  · rw [hp', hkk i h1 h2, hkd]
  · rw [hp', hmm]

/-- C15: the directory that `create_pagedir` builds. In a state whose active directory
carries its mirror (P1), with at most 2^20 frames, in which the frames of the active
directory, of the kernel directory and of the page table of `temp` (if the directory
has one) are marked used and that page table is not a directory, and with a page-aligned
`temp`: whenever `create_pagedir` returns a descriptor `d`, the frame `p` that backs the
new directory is the non-zero frame that `frame_alloc(1)` returned, `d.phys_addr` is
`p * 4096`, and frame `p` holds 0 at every index below `FIRST_KERNEL_PT = 768`, the kernel
directory's entry `i` at every `i` from 768 to 1022, and `(p * 4096) | present | rw` at
index 1023. -/
theorem create_pagedir_entries (s s' : PagingState) (pd temp : Nat) (d : pagedir_t)
    (hP : P1 s) (hal : temp % PAGE_SIZE = 0) (hnf : s.frames.nframes ≤ 2 ^ 20)
    (hcb : frame_bit s.frames s.cr3 = true) (hkb : frame_bit s.frames s.kernel_pd = true)
    (htab : s.mem s.cr3 (PT_OF_ADDR temp) ≠ 0 →
      frame_bit s.frames (s.mem s.cr3 (PT_OF_ADDR temp) >>> PTE_FRAME_SHIFT) = true ∧
      s.mem s.cr3 (PT_OF_ADDR temp) >>> PTE_FRAME_SHIFT ≠ s.cr3 ∧
      s.mem s.cr3 (PT_OF_ADDR temp) >>> PTE_FRAME_SHIFT ≠ s.kernel_pd)
    (h : create_pagedir s pd temp = .ok (s', some d)) :
    ∃ p, p = (frame_alloc s.frames 1).2 ∧ p ≠ 0 ∧ d.phys_addr = p * PAGE_SIZE ∧
      (∀ i, i < FIRST_KERNEL_PT → s'.mem p i = 0) ∧
      (∀ i, FIRST_KERNEL_PT ≤ i → i ≤ 1022 → s'.mem p i = s'.mem s'.kernel_pd i) ∧
      s'.mem p 1023 = (p * PAGE_SIZE) ||| PTE_PRESENT ||| PTE_RW ∧
      s'.mem p 1023 = d.phys_addr ||| PTE_PRESENT ||| PTE_RW := by
  obtain ⟨hp0, hpd, htemp, s2, hmap⟩ := create_pagedir_some s s' pd temp d h
  obtain ⟨t, ht, hz, hk, hm⟩ :=
    create_pagedir_spec s s2 pd temp hP hal hnf hcb hkb htab hp0 hpd htemp hmap
  rw [ht] at h
  simp only [Except.ok.injEq, Prod.mk.injEq, Option.some.injEq] at h
  obtain ⟨h1, h2⟩ := h
  subst h1
  subst h2
  exact ⟨_, rfl, hp0, rfl, hz, hk, hm, hm⟩

/-- C15 at a concrete state: the kernel directory in frame 1 is active, frames 0 and 1 are
used, and the free frame 2 still holds `0x9001` in word 7. `create_pagedir` with the
temporary page at `0xD0000000` returns the descriptor of frame 2, whose word 7 is now 0
and whose entry 1023 is `0x2003`. -/
theorem create_pagedir_entries_witness :
    ∃ s' d, create_pagedir fresh_state 0xC0200000 0xD0000000 = .ok (s', some d) ∧
      d.phys_addr = 0x2000 ∧ s'.mem 2 7 = 0 ∧ s'.mem 2 1023 = 0x2003 := by
  obtain ⟨s', h, _⟩ := create_pagedir_spec fresh_state _
    0xC0200000 0xD0000000 (by decide) (by decide) (by decide) (by decide) (by decide)
    (fun hne => absurd rfl hne) (by decide) (by decide) (by decide) rfl
  obtain ⟨p, hp, _, hd, hz, _, hm, _⟩ := create_pagedir_entries fresh_state s' 0xC0200000
    0xD0000000 _ (by decide) (by decide) (by decide) (by decide) (by decide)
    (fun hne => absurd rfl hne) h
  have hp2 : p = 2 := hp.trans (by decide)
  subst hp2
  exact ⟨s', _, h, rfl, hz 7 (by decide), hm⟩

/-! ## The byte copies -/

/-- The second loop of `memmove` writes only to `dest[count - k + 1 .. count]`. -/
theorem memmove_down_outside (mem : Nat → Nat) (dest src count k a : Nat) (hk : k ≤ count)
    (ha : a < dest + (count - k) + 1 ∨ dest + count < a) :
    memmove_down mem dest src count k a = mem a := by
  induction k with
  | zero => rfl
  | succ k ih =>
    rw [memmove_down, Function.update_apply, if_neg (by omega)]
    exact ih (by omega) (by omega)

/-- When `dest` is not below `src`, `memmove` never writes `dest[0]`. -/
theorem memmove_keeps_first_byte (mem : Nat → Nat) (vd vs count : Nat) (h : ¬ vd < vs) :
    memmove mem vd vs count vd = mem vd := by
  unfold memmove
  rw [if_neg h]
  exact memmove_down_outside mem vd vs count count vd (le_refl _) (Or.inl (by omega))

/-- C21 (the code at a failing input): the three bytes `1, 2, 3` at `0x100` are moved to
the disjoint buffer at `0x200`, which is not below the source, so `memmove` takes its
second loop. That loop writes `dest[3]`, `dest[2]`, `dest[1]`: afterwards the destination
holds `0, 2, 3` instead of `1, 2, 3`, and the byte behind it, `0xAA` before the call, has
been overwritten with the byte `0x77` that follows the source. `memcpy` on the same
buffers, and `memmove` to a destination below the source, give `1, 2, 3` and write
nothing else. -/
theorem memmove_down_off_by_one :
    ¬ (0x200 < 0x100) ∧ 0x100 + 3 ≤ 0x200 ∧
      bytes_at copy_mem 0x100 3 = [1, 2, 3] ∧
      bytes_at copy_mem 0x200 4 = [0, 0, 0, 0xAA] ∧
      bytes_at (memmove copy_mem 0x200 0x100 3) 0x200 4 = [0, 2, 3, 0x77] ∧
      bytes_at (memcpy copy_mem 0x200 0x100 3) 0x200 4 = [1, 2, 3, 0xAA] ∧
      bytes_at (memmove copy_mem 0x80 0x100 3) 0x80 4 = [1, 2, 3, 0] := by
  decide

end Macroscope
